import Mathlib

/-!
Verification of the voice-controlled hopping game ("Chicken Hop") of this
repository.  The definitions below are a shallow embedding of the second
iteration of the game component: positions are rationals, timestamps are
integers (milliseconds), and the per-frame callback becomes a pure function
`tick : GameState → TickInput → GameState`.

Sources of nondeterminism of the original code become explicit per-tick
inputs: the microphone loudness reading, the current wall-clock time, the
uniform random draw used by platform generation, and the value of
sin(progress·π) used by the vertical jump arc (supplied as an oracle,
since the claims only ever depend on positions and identifiers, never on
the exact arc height).

React specifics are embedded as follows: mutable refs and the loop-local
variables of the effect closure (lastHopTime, soundActive, peakVolume)
become fields of GameState; the component state managed through setters
(score, highScore, gameOver, isPlaying) also becomes fields, with the
reads that the source performs through the effect closure (the score and
highScore occurrences inside platform generation and the game-over
bookkeeping) taking the value the state had when the tick began, exactly
as the closure does.
-/

namespace ChickenHop

/-- Logical canvas width in pixels. -/
def CANVAS_WIDTH : ℚ := 800

/-- Logical canvas height in pixels. -/
def CANVAS_HEIGHT : ℚ := 600

/-- Side of the square chicken sprite. -/
def CHICKEN_SIZE : ℚ := 40

/-- Width of a platform. -/
def PLATFORM_WIDTH : ℚ := 80

/-- Fixed vertical position of every platform. -/
def PLATFORM_Y : ℚ := 400

/-- Horizontal distance corresponding to one gap unit. -/
def UNIT_DISTANCE : ℚ := 120

/-- Duration of the jump animation in milliseconds. -/
def JUMP_ANIMATION_DURATION : ℤ := 300

/-- Duration of the fall animation in milliseconds. -/
def FALL_DURATION : ℤ := 800

/-- Lowest loudness threshold (short hop). -/
def VOLUME_THRESHOLD_1 : ℚ := 15

/-- Middle loudness threshold (medium hop). -/
def VOLUME_THRESHOLD_2 : ℚ := 30

/-- Highest loudness threshold (long hop). -/
def VOLUME_THRESHOLD_3 : ℚ := 50

/-- Minimum interval between two hop triggers, in milliseconds. -/
def HOP_COOLDOWN : ℤ := 350

/-- A platform, as in the source: x position, y position, the gap (in
units) separating it from its predecessor, and its sequential id. -/
structure Platform where
  x : ℚ
  y : ℚ
  distance : ℕ
  id : ℕ
deriving DecidableEq

/-- The value used when the source would read the last element of an
empty platform array (a state the safety claim shows is unreachable). -/
def defaultPlatform : Platform := ⟨0, 0, 1, 0⟩

/-- The chicken record of the source. -/
structure Chicken where
  x : ℚ
  y : ℚ
  isJumping : Bool
  isFalling : Bool
  fallStartTime : ℤ
  jumpStartTime : ℤ
  jumpStartX : ℚ
  jumpEndX : ℚ
  jumpDistance : ℕ
  targetPlatformId : ℕ
deriving DecidableEq

/-- Observable events a tick can produce: a hop trigger (jump sound),
a successful landing (land sound and score update), the start of a fall
(fall sound), or the game-over report. -/
inductive GEvent where
  | jump (strength : ℕ) (time : ℤ)
  | landed (id : ℕ)
  | fell
  | over
deriving DecidableEq

/-- The whole mutable world of one game session. -/
structure GameState where
  chicken : Chicken
  platforms : List Platform
  currentPlatformId : ℕ
  nextPlatformId : ℕ
  cameraX : ℚ
  score : ℕ
  highScore : ℕ
  gameOver : Bool
  isPlaying : Bool
  lastHopTime : ℤ
  soundActive : Bool
  peakVolume : ℚ
  soundEffectGate : ℤ
  jumpFeedbackTimer : ℤ
  difficultyProgress : ℕ
  events : List GEvent
deriving DecidableEq

/-- The nondeterministic inputs consumed by one tick: the wall clock, the
loudness sample, the uniform random draw of platform generation, and the
oracle value standing for sin(progress·π) in the jump arc. -/
structure TickInput where
  now : ℤ
  volume : ℚ
  rand : ℚ
  sinv : ℚ
deriving DecidableEq

/-- Index produced by Math.floor(Math.random() * 4). -/
def randIndex4 (r : ℚ) : ℕ := (⌊r * 4⌋).toNat

/-- Gap distance chosen for the i-th platform of the initial run
(progressive difficulty of initGame). -/
def initDistance (i : ℕ) (r : ℚ) : ℕ :=
  if i < 10 then 1
  else if i < 20 then (if r < 7/10 then 1 else 2)
  else [1, 1, 2, 3].getD (randIndex4 r) 1

/-- Gap distance chosen by per-tick platform generation, banded by the
current score (the difficulty table of the game loop). -/
def genDistance (score : ℕ) (r : ℚ) : ℕ :=
  if score < 10 then 1
  else if score < 20 then (if r < 7/10 then 1 else 2)
  else if score < 40 then [1, 1, 2, 3].getD (randIndex4 r) 1
  else [1, 2, 2, 3].getD (randIndex4 r) 1

/-- The loop of initGame: state is (lastX, positionId, platform list);
iteration i reads the i-th random draw. -/
def initPlatformsAux (rs : ℕ → ℚ) : ℕ → ℚ × ℕ × List Platform
  | 0 => (100, 0, [⟨100, PLATFORM_Y, 1, 0⟩])
  | n + 1 =>
    match initPlatformsAux rs n with
    | (lastX, pid, l) =>
      let d := initDistance n (rs n)
      (lastX + UNIT_DISTANCE * d, pid + d,
        l ++ [⟨lastX + UNIT_DISTANCE * d, PLATFORM_Y, d, pid + d⟩])

/-- The chicken as initGame builds it, standing on the first platform. -/
def initChicken : Chicken :=
  { x := 100 + PLATFORM_WIDTH / 2 - CHICKEN_SIZE / 2
    y := PLATFORM_Y - CHICKEN_SIZE
    isJumping := false
    isFalling := false
    fallStartTime := 0
    jumpStartTime := 0
    jumpStartX := 0
    jumpEndX := 0
    jumpDistance := 0
    targetPlatformId := 0 }

/-- initGame: fresh session state.  high is the previously loaded best
score and gate the sound-effect mute deadline left by a previous session
(both live in refs the source does not reset); rs supplies the random
draws of the initial platform run.  The loop-closure variables
(lastHopTime, soundActive, peakVolume) take the values they have when the
effect mounts. -/
def initGame (high : ℕ) (gate : ℤ) (rs : ℕ → ℚ) : GameState :=
  let st := initPlatformsAux rs 30
  { chicken := initChicken
    platforms := st.2.2
    currentPlatformId := 0
    nextPlatformId := st.2.1 + 1
    cameraX := initChicken.x - 200
    score := 0
    highScore := high
    gameOver := false
    isPlaying := true
    lastHopTime := 0
    soundActive := false
    peakVolume := 0
    soundEffectGate := gate
    jumpFeedbackTimer := 0
    difficultyProgress := 0
    events := [] }

/-- Peak loudness classified against the three ordered thresholds. -/
def classifyPeak (peak : ℚ) : ℕ :=
  if VOLUME_THRESHOLD_3 < peak then 3
  else if VOLUME_THRESHOLD_2 < peak then 2
  else if VOLUME_THRESHOLD_1 < peak then 1
  else 0

/-- The peak-hold edge-detection block of the game loop.  Runs only when
the chicken is grounded, the sound-effect mute window has passed and the
cooldown has elapsed; tracks the peak while the loudness stays above the
lowest threshold and triggers a hop on the falling edge. -/
def detectHop (s : GameState) (i : TickInput) : GameState :=
  if s.chicken.isJumping = false ∧ s.chicken.isFalling = false ∧
      s.soundEffectGate < i.now ∧ HOP_COOLDOWN < i.now - s.lastHopTime then
    if VOLUME_THRESHOLD_1 < i.volume then
      { s with soundActive := true, peakVolume := max s.peakVolume i.volume }
    else if s.soundActive = true then
      let k := classifyPeak s.peakVolume
      if 0 < k then
        let targetId := s.currentPlatformId + k
        let targetX :=
          match s.platforms.find? (fun p => decide (p.id = targetId)) with
          | some p => p.x + PLATFORM_WIDTH / 2 - CHICKEN_SIZE / 2
          | none => s.chicken.x + UNIT_DISTANCE * k
        { s with
            soundActive := false
            peakVolume := 0
            chicken := { s.chicken with
              isJumping := true
              jumpStartTime := i.now
              jumpStartX := s.chicken.x
              jumpEndX := targetX
              jumpDistance := k
              targetPlatformId := targetId }
            soundEffectGate := i.now + 250
            jumpFeedbackTimer := i.now + 500
            lastHopTime := i.now
            events := s.events ++ [GEvent.jump k i.now] }
      else
        { s with soundActive := false, peakVolume := 0 }
    else s
  else s

/-- The jump-animation block: interpolate the position, and when progress
reaches 1 either snap to the target platform (landing) or start falling. -/
def jumpAnim (s : GameState) (i : TickInput) : GameState :=
  if s.chicken.isJumping = true then
    let elapsed : ℤ := i.now - s.chicken.jumpStartTime
    let progress : ℚ := min ((elapsed : ℚ) / (JUMP_ANIMATION_DURATION : ℚ)) 1
    let jumpHeight : ℚ := 80 + (s.chicken.jumpDistance : ℚ) * 20
    let c1 : Chicken := { s.chicken with
      x := s.chicken.jumpStartX + (s.chicken.jumpEndX - s.chicken.jumpStartX) * progress
      y := PLATFORM_Y - CHICKEN_SIZE - i.sinv * jumpHeight }
    if 1 ≤ progress then
      match s.platforms.find? (fun p => decide (p.id = c1.targetPlatformId)) with
      | some p =>
          { s with
              chicken := { c1 with
                x := p.x + PLATFORM_WIDTH / 2 - CHICKEN_SIZE / 2
                y := PLATFORM_Y - CHICKEN_SIZE
                isJumping := false
                jumpDistance := 0 }
              currentPlatformId := c1.targetPlatformId
              score := c1.targetPlatformId
              soundEffectGate := i.now + 250
              events := s.events ++ [GEvent.landed c1.targetPlatformId] }
      | none =>
          { s with
              chicken := { c1 with
                isJumping := false
                isFalling := true
                fallStartTime := i.now
                jumpDistance := 0 }
              soundEffectGate := i.now + 250
              events := s.events ++ [GEvent.fell] }
    else
      { s with chicken := c1 }
  else s

/-- Game-over bookkeeping shared by both terminal paths: flip the flags
and persist the best score when the current score exceeds it.  origScore
and origHigh are the values the effect closure captured, i.e. the values
at the start of the tick. -/
def applyGameOver (s : GameState) (origScore origHigh : ℕ) : GameState :=
  { s with
      gameOver := true
      isPlaying := false
      highScore := if origHigh < origScore then origScore else origHigh
      events := s.events ++ [GEvent.over] }

/-- The fall-animation block.  Sum.inl is the early return of the source
(fall animation complete, game over); Sum.inr continues the tick. -/
def fallAnim (s : GameState) (i : TickInput) (origScore origHigh : ℕ) :
    GameState ⊕ GameState :=
  if s.chicken.isFalling = true then
    let fallElapsed : ℤ := i.now - s.chicken.fallStartTime
    let fallProgress : ℚ := min ((fallElapsed : ℚ) / (FALL_DURATION : ℚ)) 1
    let c1 : Chicken := { s.chicken with
      y := PLATFORM_Y - CHICKEN_SIZE + fallProgress * fallProgress * CANVAS_HEIGHT }
    if 1 ≤ fallProgress then
      Sum.inl (applyGameOver { s with chicken := c1 } origScore origHigh)
    else
      Sum.inr { s with chicken := c1 }
  else Sum.inr s

/-- Per-tick platform generation: append one platform past the last one
whenever the last platform is within the look-ahead window; origScore is
the score the closure captured at the start of the tick. -/
def generatePlat (s : GameState) (origScore : ℕ) (i : TickInput) : GameState :=
  let last := s.platforms.getLastD defaultPlatform
  if last.x < s.chicken.x + CANVAS_WIDTH * 2 then
    let d := genDistance origScore i.rand
    let newP : Platform := ⟨last.x + UNIT_DISTANCE * d, PLATFORM_Y, d, last.id + d⟩
    { s with platforms := s.platforms ++ [newP], nextPlatformId := newP.id + 1 }
  else s

/-- Eviction: drop every platform at or behind the camera minus the
trailing margin (the source keeps p.x > cameraX - 200). -/
def evictPlatforms (s : GameState) : GameState :=
  { s with platforms := s.platforms.filter (fun p => decide (s.cameraX - 200 < p.x)) }

/-- The state right before eviction: detection, jump and fall animation,
camera follow and platform generation have run; none when the tick took
the fall-complete early return. -/
def midTick (s0 : GameState) (i : TickInput) : Option GameState :=
  match fallAnim (jumpAnim (detectHop { s0 with events := [] } i) i) i s0.score s0.highScore with
  | Sum.inl _ => none
  | Sum.inr s3 =>
      some (generatePlat { s3 with cameraX := s3.chicken.x - 200 } s0.score i)

/-- One full pass of the game loop.  The final game-over check reads the
last element of the pre-eviction array, exactly as the source does (its
local binding still references the array that was filtered into the ref). -/
def tick (s0 : GameState) (i : TickInput) : GameState :=
  match fallAnim (jumpAnim (detectHop { s0 with events := [] } i) i) i s0.score s0.highScore with
  | Sum.inl g => g
  | Sum.inr s3 =>
      let s5 := generatePlat { s3 with cameraX := s3.chicken.x - 200 } s0.score i
      let s6 := evictPlatforms s5
      if CANVAS_HEIGHT < s6.chicken.y ∨
          (s6.chicken.isJumping = true ∧
            (s5.platforms.getLastD defaultPlatform).x + PLATFORM_WIDTH < s6.chicken.x) then
        applyGameOver s6 s0.score s0.highScore
      else s6

/-- The states a session can reach: the state initGame builds, and any
tick successor of a reachable state while the session is active. -/
inductive Reachable : GameState → Prop
  | init (high : ℕ) (gate : ℤ) (rs : ℕ → ℚ) : Reachable (initGame high gate rs)
  | step {s : GameState} (i : TickInput) (hs : Reachable s)
      (hp : s.isPlaying = true) : Reachable (tick s i)

/-- One recorded hop trigger: the index of the tick in the input trace,
the wall-clock time, the classified strength, and the loudness sample of
the triggering tick. -/
structure Trig where
  idx : ℕ
  time : ℤ
  strength : ℕ
  volume : ℚ
deriving DecidableEq

/-- The triggers a single tick emits (tagged with tick index n). -/
def tickTrigs (s : GameState) (i : TickInput) (n : ℕ) : List Trig :=
  (tick s i).events.filterMap (fun e =>
    match e with
    | GEvent.jump k t => some ⟨n, t, k, i.volume⟩
    | _ => none)

/-- All hop triggers of a run of the game loop over an input trace. -/
def runTrigs (s : GameState) (n : ℕ) : List TickInput → List Trig
  | [] => []
  | i :: rest => tickTrigs s i n ++ runTrigs (tick s i) (n + 1) rest

/-- Microphone permission state of the component. -/
inductive MicPermission where
  | granted
  | denied
  | pending
deriving DecidableEq

/-- Outcome of one getUserMedia request. -/
inductive MicResult where
  | ok
  | err
deriving DecidableEq

/-- initMicrophone: the permission state it stores. -/
def initMicrophone (r : MicResult) : MicPermission :=
  match r with
  | MicResult.ok => MicPermission.granted
  | MicResult.err => MicPermission.denied

/-- What one invocation of startGame does. -/
structure StartResult where
  permission : MicPermission
  acquisitionAttempted : Bool
  gameStarted : Bool
deriving DecidableEq

/-- startGame.  captured is the micPermission value the invoked closure
holds: in React the setter inside initMicrophone does not change the
binding captured at render time, so the post-await check reads the same
captured value, not the freshly stored one. -/
def startGame (captured : MicPermission) (r : MicResult) : StartResult :=
  if captured = MicPermission.pending then
    { permission := initMicrophone r
      acquisitionAttempted := true
      gameStarted := decide (captured ≠ MicPermission.denied) }
  else
    { permission := captured
      acquisitionAttempted := false
      gameStarted := decide (captured ≠ MicPermission.denied) }

/-! ### Concrete sample data used by the witnesses -/

/-- The platform run initGame builds when every random draw is 0. -/
def runPlats : List Platform := [⟨100, 400, 1, 0⟩, ⟨220, 400, 1, 1⟩, ⟨340, 400, 1, 2⟩, ⟨460, 400, 1, 3⟩, ⟨580, 400, 1, 4⟩, ⟨700, 400, 1, 5⟩, ⟨820, 400, 1, 6⟩, ⟨940, 400, 1, 7⟩, ⟨1060, 400, 1, 8⟩, ⟨1180, 400, 1, 9⟩, ⟨1300, 400, 1, 10⟩, ⟨1420, 400, 1, 11⟩, ⟨1540, 400, 1, 12⟩, ⟨1660, 400, 1, 13⟩, ⟨1780, 400, 1, 14⟩, ⟨1900, 400, 1, 15⟩, ⟨2020, 400, 1, 16⟩, ⟨2140, 400, 1, 17⟩, ⟨2260, 400, 1, 18⟩, ⟨2380, 400, 1, 19⟩, ⟨2500, 400, 1, 20⟩, ⟨2620, 400, 1, 21⟩, ⟨2740, 400, 1, 22⟩, ⟨2860, 400, 1, 23⟩, ⟨2980, 400, 1, 24⟩, ⟨3100, 400, 1, 25⟩, ⟨3220, 400, 1, 26⟩, ⟨3340, 400, 1, 27⟩, ⟨3460, 400, 1, 28⟩, ⟨3580, 400, 1, 29⟩, ⟨3700, 400, 1, 30⟩]

/-- A fresh session with zero best score, zero sound gate and all random
draws 0. -/
def sampleInit : GameState := initGame 0 0 (fun _ => 0)

/-- A tick input with everything at zero. -/
def sampleStill : TickInput := ⟨0, 0, 0, 0⟩

/-- A loud tick input (rising edge). -/
def sampleLoud : TickInput := ⟨400, 20, 0, 0⟩

/-- A quiet tick input after the loud one (falling edge, triggers a hop). -/
def sampleQuiet : TickInput := ⟨800, 0, 0, 0⟩

/-- A quiet tick input at which the sample jump animation completes. -/
def sampleLand : TickInput := ⟨1100, 0, 0, 0⟩

/-- The pre-eviction mid-tick state of sampleInit under sampleStill. -/
def sampleMid : GameState :=
  generatePlat { sampleInit with events := [], cameraX := sampleInit.chicken.x - 200 }
    0 sampleStill

/-- The session state after the loud tick: peak tracking is active. -/
def sampleTracking : GameState :=
  { chicken := initChicken
    platforms := runPlats
    currentPlatformId := 0
    nextPlatformId := 31
    cameraX := -80
    score := 0
    highScore := 0
    gameOver := false
    isPlaying := true
    lastHopTime := 0
    soundActive := true
    peakVolume := 20
    soundEffectGate := 0
    jumpFeedbackTimer := 0
    difficultyProgress := 0
    events := [] }

/-- The session state after the falling-edge tick: a strength-1 hop
toward platform 1 is in flight. -/
def sampleJumping : GameState :=
  { chicken :=
      { x := 120
        y := 360
        isJumping := true
        isFalling := false
        fallStartTime := 0
        jumpStartTime := 800
        jumpStartX := 120
        jumpEndX := 240
        jumpDistance := 1
        targetPlatformId := 1 }
    platforms := runPlats
    currentPlatformId := 0
    nextPlatformId := 31
    cameraX := -80
    score := 0
    highScore := 0
    gameOver := false
    isPlaying := true
    lastHopTime := 800
    soundActive := false
    peakVolume := 0
    soundEffectGate := 1050
    jumpFeedbackTimer := 1300
    difficultyProgress := 0
    events := [GEvent.jump 1 800] }

/-- A session state in mid-fall since time 0. -/
def sampleFallen : GameState :=
  { sampleInit with chicken := { initChicken with isFalling := true } }

/-- A tick input at which the sample fall completes. -/
def sampleFallTick : TickInput := ⟨900, 0, 0, 0⟩

/-- A session state with a jump in flight toward platform id 100, which
no live platform carries. -/
def sampleDoomed : GameState :=
  { sampleTracking with
      soundActive := false
      peakVolume := 0
      chicken := { initChicken with
        isJumping := true
        jumpStartTime := 0
        jumpStartX := 120
        jumpEndX := 240
        jumpDistance := 1
        targetPlatformId := 100 } }

/-- A tick input at which the doomed sample jump completes. -/
def sampleMissTick : TickInput := ⟨400, 0, 0, 0⟩

/-! ### Elementary bounds on the random-distance tables -/

theorem getD_bounds_1123 (n : ℕ) :
    1 ≤ [1, 1, 2, 3].getD n 1 ∧ [1, 1, 2, 3].getD n 1 ≤ 3 := by
  match n with
  | 0 => decide
  | 1 => decide
  | 2 => decide
  | 3 => decide
  | n + 4 => simp [List.getD]

theorem getD_bounds_1223 (n : ℕ) :
    1 ≤ [1, 2, 2, 3].getD n 1 ∧ [1, 2, 2, 3].getD n 1 ≤ 3 := by
  match n with
  | 0 => decide
  | 1 => decide
  | 2 => decide
  | 3 => decide
  | n + 4 => simp [List.getD]

theorem initDistance_bounds (i : ℕ) (r : ℚ) :
    1 ≤ initDistance i r ∧ initDistance i r ≤ 3 := by
  unfold initDistance
  split_ifs <;> first | omega | exact getD_bounds_1123 _

theorem genDistance_bounds (sc : ℕ) (r : ℚ) :
    1 ≤ genDistance sc r ∧ genDistance sc r ≤ 3 := by
  unfold genDistance
  split_ifs <;> first | omega | exact getD_bounds_1123 _ | exact getD_bounds_1223 _

theorem classifyPeak_le_three (q : ℚ) : classifyPeak q ≤ 3 := by
  unfold classifyPeak
  split_ifs <;> omega

theorem classifyPeak_pos (q : ℚ) (h : VOLUME_THRESHOLD_1 < q) : 1 ≤ classifyPeak q := by
  unfold classifyPeak
  split_ifs <;> omega

/-! ### Fields each phase leaves untouched -/

theorem detectHop_platforms (s : GameState) (i : TickInput) :
    (detectHop s i).platforms = s.platforms := by
  unfold detectHop
  dsimp only
  split_ifs <;> rfl

theorem detectHop_currentPlatformId (s : GameState) (i : TickInput) :
    (detectHop s i).currentPlatformId = s.currentPlatformId := by
  unfold detectHop
  dsimp only
  split_ifs <;> rfl

theorem detectHop_score (s : GameState) (i : TickInput) :
    (detectHop s i).score = s.score := by
  unfold detectHop
  dsimp only
  split_ifs <;> rfl

theorem detectHop_highScore (s : GameState) (i : TickInput) :
    (detectHop s i).highScore = s.highScore := by
  unfold detectHop
  dsimp only
  split_ifs <;> rfl

theorem detectHop_gameOver (s : GameState) (i : TickInput) :
    (detectHop s i).gameOver = s.gameOver := by
  unfold detectHop
  dsimp only
  split_ifs <;> rfl

theorem detectHop_isPlaying (s : GameState) (i : TickInput) :
    (detectHop s i).isPlaying = s.isPlaying := by
  unfold detectHop
  dsimp only
  split_ifs <;> rfl

theorem detectHop_chicken_x (s : GameState) (i : TickInput) :
    (detectHop s i).chicken.x = s.chicken.x := by
  unfold detectHop
  dsimp only
  split_ifs <;> rfl

theorem detectHop_chicken_y (s : GameState) (i : TickInput) :
    (detectHop s i).chicken.y = s.chicken.y := by
  unfold detectHop
  dsimp only
  split_ifs <;> rfl

theorem detectHop_chicken_isFalling (s : GameState) (i : TickInput) :
    (detectHop s i).chicken.isFalling = s.chicken.isFalling := by
  unfold detectHop
  dsimp only
  split_ifs <;> rfl

theorem jumpAnim_platforms (s : GameState) (i : TickInput) :
    (jumpAnim s i).platforms = s.platforms := by
  unfold jumpAnim
  dsimp only
  split_ifs <;> first | rfl | (split <;> rfl)

theorem jumpAnim_lastHopTime (s : GameState) (i : TickInput) :
    (jumpAnim s i).lastHopTime = s.lastHopTime := by
  unfold jumpAnim
  dsimp only
  split_ifs <;> first | rfl | (split <;> rfl)

theorem jumpAnim_soundActive (s : GameState) (i : TickInput) :
    (jumpAnim s i).soundActive = s.soundActive := by
  unfold jumpAnim
  dsimp only
  split_ifs <;> first | rfl | (split <;> rfl)

theorem jumpAnim_peakVolume (s : GameState) (i : TickInput) :
    (jumpAnim s i).peakVolume = s.peakVolume := by
  unfold jumpAnim
  dsimp only
  split_ifs <;> first | rfl | (split <;> rfl)

theorem jumpAnim_highScore (s : GameState) (i : TickInput) :
    (jumpAnim s i).highScore = s.highScore := by
  unfold jumpAnim
  dsimp only
  split_ifs <;> first | rfl | (split <;> rfl)

theorem jumpAnim_gameOver (s : GameState) (i : TickInput) :
    (jumpAnim s i).gameOver = s.gameOver := by
  unfold jumpAnim
  dsimp only
  split_ifs <;> first | rfl | (split <;> rfl)

theorem jumpAnim_isPlaying (s : GameState) (i : TickInput) :
    (jumpAnim s i).isPlaying = s.isPlaying := by
  unfold jumpAnim
  dsimp only
  split_ifs <;> first | rfl | (split <;> rfl)

theorem applyGameOver_platforms (s : GameState) (a b : ℕ) :
    (applyGameOver s a b).platforms = s.platforms := rfl

theorem applyGameOver_chicken (s : GameState) (a b : ℕ) :
    (applyGameOver s a b).chicken = s.chicken := rfl

theorem applyGameOver_score (s : GameState) (a b : ℕ) :
    (applyGameOver s a b).score = s.score := rfl

theorem applyGameOver_currentPlatformId (s : GameState) (a b : ℕ) :
    (applyGameOver s a b).currentPlatformId = s.currentPlatformId := rfl

theorem fallAnim_inl (s : GameState) (i : TickInput) (a b : ℕ) (g : GameState)
    (h : fallAnim s i a b = Sum.inl g) :
    g.platforms = s.platforms ∧ g.chicken.x = s.chicken.x ∧
      g.currentPlatformId = s.currentPlatformId ∧ g.score = s.score ∧
      g.lastHopTime = s.lastHopTime ∧ g.soundActive = s.soundActive ∧
      g.gameOver = true ∧ g.isPlaying = false ∧
      g.highScore = (if b < a then a else b) ∧
      g.chicken.isJumping = s.chicken.isJumping ∧
      g.chicken.isFalling = s.chicken.isFalling := by
  unfold fallAnim at h
  dsimp only at h
  split at h
  · split at h
    · injection h with h
      subst h
      refine ⟨rfl, rfl, rfl, rfl, rfl, rfl, rfl, rfl, rfl, rfl, ?_⟩
      simp_all [applyGameOver]
    · cases h
  · cases h

theorem fallAnim_inr (s : GameState) (i : TickInput) (a b : ℕ) (s' : GameState)
    (h : fallAnim s i a b = Sum.inr s') :
    s'.platforms = s.platforms ∧ s'.chicken.x = s.chicken.x ∧
      s'.currentPlatformId = s.currentPlatformId ∧ s'.score = s.score ∧
      s'.lastHopTime = s.lastHopTime ∧ s'.soundActive = s.soundActive ∧
      s'.gameOver = s.gameOver ∧ s'.isPlaying = s.isPlaying ∧
      s'.highScore = s.highScore ∧ s'.events = s.events ∧
      s'.chicken.isJumping = s.chicken.isJumping ∧
      s'.chicken.isFalling = s.chicken.isFalling ∧
      s'.chicken.jumpStartX = s.chicken.jumpStartX ∧
      s'.chicken.jumpEndX = s.chicken.jumpEndX ∧
      s'.chicken.targetPlatformId = s.chicken.targetPlatformId ∧
      s'.chicken.fallStartTime = s.chicken.fallStartTime ∧
      s'.chicken.jumpStartTime = s.chicken.jumpStartTime ∧
      s'.soundEffectGate = s.soundEffectGate := by
  unfold fallAnim at h
  dsimp only at h
  split at h
  · split at h
    · cases h
    · injection h with h
      subst h
      exact ⟨rfl, rfl, rfl, rfl, rfl, rfl, rfl, rfl, rfl, rfl, rfl, rfl, rfl, rfl, rfl, rfl, rfl, rfl⟩
  · injection h with h
    subst h
    exact ⟨rfl, rfl, rfl, rfl, rfl, rfl, rfl, rfl, rfl, rfl, rfl, rfl, rfl, rfl, rfl, rfl, rfl, rfl⟩

theorem generatePlat_chicken (s : GameState) (n : ℕ) (i : TickInput) :
    (generatePlat s n i).chicken = s.chicken := by
  unfold generatePlat
  dsimp only
  split_ifs <;> rfl

theorem generatePlat_currentPlatformId (s : GameState) (n : ℕ) (i : TickInput) :
    (generatePlat s n i).currentPlatformId = s.currentPlatformId := by
  unfold generatePlat
  dsimp only
  split_ifs <;> rfl

theorem generatePlat_score (s : GameState) (n : ℕ) (i : TickInput) :
    (generatePlat s n i).score = s.score := by
  unfold generatePlat
  dsimp only
  split_ifs <;> rfl

theorem generatePlat_highScore (s : GameState) (n : ℕ) (i : TickInput) :
    (generatePlat s n i).highScore = s.highScore := by
  unfold generatePlat
  dsimp only
  split_ifs <;> rfl

theorem generatePlat_gameOver (s : GameState) (n : ℕ) (i : TickInput) :
    (generatePlat s n i).gameOver = s.gameOver := by
  unfold generatePlat
  dsimp only
  split_ifs <;> rfl

theorem generatePlat_isPlaying (s : GameState) (n : ℕ) (i : TickInput) :
    (generatePlat s n i).isPlaying = s.isPlaying := by
  unfold generatePlat
  dsimp only
  split_ifs <;> rfl

theorem generatePlat_cameraX (s : GameState) (n : ℕ) (i : TickInput) :
    (generatePlat s n i).cameraX = s.cameraX := by
  unfold generatePlat
  dsimp only
  split_ifs <;> rfl

theorem generatePlat_lastHopTime (s : GameState) (n : ℕ) (i : TickInput) :
    (generatePlat s n i).lastHopTime = s.lastHopTime := by
  unfold generatePlat
  dsimp only
  split_ifs <;> rfl

theorem generatePlat_soundActive (s : GameState) (n : ℕ) (i : TickInput) :
    (generatePlat s n i).soundActive = s.soundActive := by
  unfold generatePlat
  dsimp only
  split_ifs <;> rfl

theorem generatePlat_events (s : GameState) (n : ℕ) (i : TickInput) :
    (generatePlat s n i).events = s.events := by
  unfold generatePlat
  dsimp only
  split_ifs <;> rfl

theorem evictPlatforms_chicken (s : GameState) :
    (evictPlatforms s).chicken = s.chicken := rfl

theorem evictPlatforms_currentPlatformId (s : GameState) :
    (evictPlatforms s).currentPlatformId = s.currentPlatformId := rfl

theorem evictPlatforms_score (s : GameState) :
    (evictPlatforms s).score = s.score := rfl

theorem evictPlatforms_events (s : GameState) :
    (evictPlatforms s).events = s.events := rfl

theorem evictPlatforms_platforms (s : GameState) :
    (evictPlatforms s).platforms =
      s.platforms.filter (fun p => decide (s.cameraX - 200 < p.x)) := rfl

/-! ### The ordering structure of the platform list -/

/-- Adjacent-platform invariant: the id grows by the gap of the later
platform and the x position by that gap times the unit distance. -/
def stepRel (p q : Platform) : Prop :=
  q.id = p.id + q.distance ∧ q.x = p.x + UNIT_DISTANCE * (q.distance : ℚ)

/-- Relation holding between any two (not necessarily adjacent) platforms
of a well-formed list: ids strictly increase and x positions differ by
the unit distance times the id difference. -/
def platRel (p q : Platform) : Prop :=
  p.id < q.id ∧ q.x - p.x = UNIT_DISTANCE * ((q.id : ℚ) - (p.id : ℚ))

theorem platRel_trans : Transitive platRel := by
  rintro a b c ⟨hab, hab'⟩ ⟨hbc, hbc'⟩
  refine ⟨lt_trans hab hbc, ?_⟩
  have : c.x - a.x = (c.x - b.x) + (b.x - a.x) := by ring
  rw [this, hab', hbc']
  ring

instance : IsTrans Platform platRel := ⟨fun _ _ _ h h' => platRel_trans h h'⟩

theorem platRel_x_lt {p q : Platform} (h : platRel p q) : p.x < q.x := by
  obtain ⟨hid, hx⟩ := h
  have h1 : (1 : ℚ) ≤ (q.id : ℚ) - (p.id : ℚ) := by
    have : (p.id : ℚ) + 1 ≤ (q.id : ℚ) := by
      exact_mod_cast Nat.succ_le_of_lt hid
    linarith
  have : (0 : ℚ) < UNIT_DISTANCE * ((q.id : ℚ) - (p.id : ℚ)) := by
    have : (0:ℚ) < UNIT_DISTANCE := by norm_num [UNIT_DISTANCE]
    nlinarith
  linarith

/-- The platform list invariant of the spec: every platform after the
first relates to its predecessor by stepRel, i.e. its id is the previous
id plus its own gap and its x the previous x plus gap times unit
distance.  (An inductive rendering of adjacent-pairs chaining.) -/
inductive Chained : List Platform → Prop
  | nil : Chained []
  | single (p : Platform) : Chained [p]
  | cons {p q : Platform} {l : List Platform} :
      stepRel p q → Chained (q :: l) → Chained (p :: q :: l)

theorem Chained.tail {p : Platform} {l : List Platform}
    (h : Chained (p :: l)) : Chained l := by
  cases h with
  | single => exact Chained.nil
  | cons hs ht => exact ht

theorem chained_append_singleton {l : List Platform} (h : Chained l)
    (q : Platform) (hq : ∀ lp, l.getLast? = some lp → stepRel lp q) :
    Chained (l ++ [q]) := by
  induction h with
  | nil => exact Chained.single q
  | single p =>
    exact Chained.cons (hq p rfl) (Chained.single q)
  | cons hs ht ih =>
    refine Chained.cons hs ?_
    exact ih (fun lp hlp => hq lp (by rw [← hlp]; exact List.getLast?_cons_cons.symm ▸ rfl))

theorem chained_of_append {l₁ l₂ : List Platform} (h : Chained (l₁ ++ l₂)) :
    Chained l₂ := by
  induction l₁ with
  | nil => exact h
  | cons a t ih => exact ih (Chained.tail (by simpa using h))

theorem chained_pairwise {l : List Platform} (hc : Chained l)
    (hd : ∀ p ∈ l, 1 ≤ p.distance) : l.Pairwise platRel := by
  induction hc with
  | nil => exact List.Pairwise.nil
  | single p => exact List.pairwise_singleton _ p
  | cons hs ht ih =>
    rename_i p q l2
    have hpq : platRel p q := by
      obtain ⟨hid, hx⟩ := hs
      have hqd : 1 ≤ q.distance := hd q (by simp)
      refine ⟨by omega, ?_⟩
      have : (q.id : ℚ) = (p.id : ℚ) + (q.distance : ℚ) := by exact_mod_cast hid
      rw [hx, this]
      ring
    have hprev := ih (fun r hr => hd r (List.mem_cons_of_mem p hr))
    rw [List.pairwise_cons]
    refine ⟨?_, hprev⟩
    intro y hy
    rcases List.mem_cons.mp hy with rfl | hy'
    · exact hpq
    · have hqy : platRel q y := (List.pairwise_cons.mp hprev).1 y hy'
      exact platRel_trans hpq hqy

theorem pairwise_elim {α : Type} {R : α → α → Prop} {l : List α} (hp : l.Pairwise R)
    {a b : α} (ha : a ∈ l) (hb : b ∈ l) : a = b ∨ R a b ∨ R b a := by
  induction l with
  | nil => cases ha
  | cons x t ih =>
    rw [List.pairwise_cons] at hp
    rcases List.mem_cons.mp ha with rfl | ha'
    · rcases List.mem_cons.mp hb with rfl | hb'
      · exact Or.inl rfl
      · exact Or.inr (Or.inl (hp.1 b hb'))
    · rcases List.mem_cons.mp hb with rfl | hb'
      · exact Or.inr (Or.inr (hp.1 a ha'))
      · exact ih hp.2 ha' hb'

theorem pairwise_id_inj {l : List Platform} (hp : l.Pairwise platRel)
    {p q : Platform} (hpm : p ∈ l) (hqm : q ∈ l) (h : p.id = q.id) : p = q := by
  rcases pairwise_elim hp hpm hqm with rfl | hr | hr
  · rfl
  · exact absurd h (by have := hr.1; omega)
  · exact absurd h (by have := hr.1; omega)

theorem pairwise_rel_of_id_lt {l : List Platform} (hp : l.Pairwise platRel)
    {p q : Platform} (hpm : p ∈ l) (hqm : q ∈ l) (h : p.id < q.id) : platRel p q := by
  rcases pairwise_elim hp hpm hqm with rfl | hr | hr
  · omega
  · exact hr
  · exact absurd h (by have := hr.1; omega)

theorem pairwise_last_bound {l : List Platform} (hp : l.Pairwise platRel)
    {lp : Platform} (hl : l.getLast? = some lp) {p : Platform} (hmem : p ∈ l) :
    p = lp ∨ platRel p lp := by
  induction l with
  | nil => cases hmem
  | cons a t ih =>
    rw [List.pairwise_cons] at hp
    cases t with
    | nil =>
      simp only [List.getLast?_singleton, Option.some.injEq] at hl
      rcases List.mem_singleton.mp hmem with rfl
      exact Or.inl hl
    | cons b t' =>
      have hl' : (b :: t').getLast? = some lp := by
        rw [← hl]; symm; exact List.getLast?_cons_cons
      rcases List.mem_cons.mp hmem with rfl | hmem'
      · have hlpmem : lp ∈ b :: t' := by
          have : lp ∈ (b :: t') ∨ False := by
            rcases List.mem_of_mem_getLast? hl' with h
            · exact Or.inl h
          rcases this with h | h
          · exact h
          · cases h
        exact Or.inr (hp.1 lp hlpmem)
      · exact ih hp.2 hl' hmem'

theorem mem_x_le_last {l : List Platform} (hp : l.Pairwise platRel)
    {lp : Platform} (hl : l.getLast? = some lp) {p : Platform} (hmem : p ∈ l) :
    p.x ≤ lp.x := by
  rcases pairwise_last_bound hp hl hmem with rfl | hr
  · exact le_refl _
  · exact le_of_lt (platRel_x_lt hr)

theorem filter_gt_suffix (l : List Platform) (c : ℚ)
    (hx : l.Pairwise (fun a b => a.x < b.x)) :
    ∃ l₁ l₂, l = l₁ ++ l₂ ∧ l.filter (fun p => decide (c < p.x)) = l₂ := by
  induction l with
  | nil => exact ⟨[], [], rfl, rfl⟩
  | cons a t ih =>
    rw [List.pairwise_cons] at hx
    by_cases hca : c < a.x
    · refine ⟨[], a :: t, rfl, ?_⟩
      rw [List.filter_cons_of_pos (by simpa using hca)]
      congr 1
      exact List.filter_eq_self.mpr (fun b hb => by
        simp only [decide_eq_true_eq]
        exact lt_trans hca (hx.1 b hb))
    · obtain ⟨l₁, l₂, heq, hfil⟩ := ih hx.2
      refine ⟨a :: l₁, l₂, by rw [heq, List.cons_append], ?_⟩
      rw [List.filter_cons_of_neg (by simpa using hca)]
      exact hfil

/-! ### The session invariant -/

/-- Structural invariant every reachable session state satisfies. -/
structure InvCore (s : GameState) : Prop where
  ne : s.platforms ≠ []
  chain : Chained s.platforms
  dist : ∀ p ∈ s.platforms, 1 ≤ p.distance ∧ p.distance ≤ 3
  score_eq : s.score = s.currentPlatformId
  flags : s.chicken.isJumping = false ∨ s.chicken.isFalling = false
  grounded : s.chicken.isJumping = false → s.chicken.isFalling = false →
    ∃ c ∈ s.platforms, c.id = s.currentPlatformId ∧ s.chicken.x = c.x + 20
  jumping : s.chicken.isJumping = true →
    ∃ c ∈ s.platforms, ∃ k : ℕ, c.id = s.currentPlatformId ∧
      s.chicken.targetPlatformId = s.currentPlatformId + k ∧ 1 ≤ k ∧ k ≤ 3 ∧
      s.chicken.jumpEndX = c.x + 20 + UNIT_DISTANCE * (k : ℚ) ∧
      s.chicken.jumpStartX ≤ s.chicken.jumpEndX ∧
      s.chicken.x ≤ s.chicken.jumpEndX
  falling : s.chicken.isFalling = true →
    ∃ c ∈ s.platforms, c.id = s.currentPlatformId ∧ s.chicken.x ≤ c.x + 380

theorem InvCore.pairwise {s : GameState} (h : InvCore s) : s.platforms.Pairwise platRel :=
  chained_pairwise h.chain (fun p hp => (h.dist p hp).1)

theorem initPlatformsAux_spec (rs : ℕ → ℚ) (n : ℕ) :
    (initPlatformsAux rs n).2.2 ≠ [] ∧
      Chained (initPlatformsAux rs n).2.2 ∧
      (∀ p ∈ (initPlatformsAux rs n).2.2, 1 ≤ p.distance ∧ p.distance ≤ 3) ∧
      (∃ lp, (initPlatformsAux rs n).2.2.getLast? = some lp ∧
        lp.x = (initPlatformsAux rs n).1 ∧ lp.id = (initPlatformsAux rs n).2.1) ∧
      (initPlatformsAux rs n).2.2.head? = some ⟨100, PLATFORM_Y, 1, 0⟩ := by
  induction n with
  | zero =>
    refine ⟨by simp [initPlatformsAux], by simp only [initPlatformsAux]; exact Chained.single _, ?_, ?_, by simp [initPlatformsAux]⟩
    · intro p hp
      simp only [initPlatformsAux, List.mem_singleton] at hp
      subst hp
      exact ⟨by norm_num, by norm_num⟩
    · exact ⟨⟨100, PLATFORM_Y, 1, 0⟩, by simp [initPlatformsAux], rfl, rfl⟩
  | succ n ih =>
    rcases haux : initPlatformsAux rs n with ⟨lx, pid, l⟩
    rw [haux] at ih
    obtain ⟨hne, hchain, hdist, ⟨lp, hlast, hlpx, hlpid⟩, hhead⟩ := ih
    dsimp only at hne hchain hdist hlast hlpx hlpid hhead
    have hd := initDistance_bounds n (rs n)
    have hstep : initPlatformsAux rs (n + 1) =
        (lx + UNIT_DISTANCE * (initDistance n (rs n)), pid + initDistance n (rs n),
          l ++ [⟨lx + UNIT_DISTANCE * (initDistance n (rs n)), PLATFORM_Y,
                  initDistance n (rs n), pid + initDistance n (rs n)⟩]) := by
      rw [initPlatformsAux, haux]
    rw [hstep]
    dsimp only
    refine ⟨by simp, ?_, ?_, ?_, ?_⟩
    · refine chained_append_singleton hchain _ ?_
      intro x hx
      rw [hlast, Option.some.injEq] at hx
      subst hx
      exact ⟨by rw [hlpid], by rw [hlpx]⟩
    · intro p hp
      rcases List.mem_append.mp hp with hp2 | hp2
      · exact hdist p hp2
      · rcases List.mem_singleton.mp hp2 with rfl
        exact hd
    · exact ⟨_, List.getLast?_concat _, rfl, rfl⟩
    · rcases List.exists_cons_of_ne_nil hne with ⟨a, t, ht⟩
      rw [ht] at hhead ⊢
      simpa using hhead

theorem initGame_platforms (high : ℕ) (gate : ℤ) (rs : ℕ → ℚ) :
    (initGame high gate rs).platforms = (initPlatformsAux rs 30).2.2 := rfl

theorem initGame_invCore (high : ℕ) (gate : ℤ) (rs : ℕ → ℚ) :
    InvCore (initGame high gate rs) := by
  refine ⟨?_, ?_, ?_, rfl, Or.inl rfl, ?_, ?_, ?_⟩
  · rw [initGame_platforms]
    exact (initPlatformsAux_spec rs 30).1
  · rw [initGame_platforms]
    exact (initPlatformsAux_spec rs 30).2.1
  · rw [initGame_platforms]
    exact (initPlatformsAux_spec rs 30).2.2.1
  · intro _ _
    refine ⟨⟨100, PLATFORM_Y, 1, 0⟩, ?_, rfl, ?_⟩
    · rw [initGame_platforms]
      exact List.mem_of_mem_head? (by rw [(initPlatformsAux_spec rs 30).2.2.2.2]; rfl)
    · show initChicken.x = (100 : ℚ) + 20
      norm_num [initChicken, PLATFORM_WIDTH, CHICKEN_SIZE]
  · intro habs
    cases habs
  · intro habs
    cases habs

/-! ### Invariant preservation through the phases of a tick -/

theorem detectHop_invCore {s : GameState} (i : TickInput) (h : InvCore s) :
    InvCore (detectHop s i) := by
  unfold detectHop
  dsimp only
  split_ifs with hcond hloud hsa hk
  · exact ⟨h.ne, h.chain, h.dist, h.score_eq, h.flags, h.grounded, h.jumping, h.falling⟩
  · -- hop trigger: the chicken enters the jumping state
    obtain ⟨hj, hf, _, _⟩ := hcond
    obtain ⟨c, hcmem, hcid, hcx⟩ := h.grounded hj hf
    have hk3 : classifyPeak s.peakVolume ≤ 3 := classifyPeak_le_three _
    have hunit : (0:ℚ) ≤ UNIT_DISTANCE * (classifyPeak s.peakVolume : ℚ) := by
      have h120 : (0:ℚ) ≤ UNIT_DISTANCE := by norm_num [UNIT_DISTANCE]
      exact mul_nonneg h120 (Nat.cast_nonneg _)
    have hend : (match s.platforms.find?
          (fun p => decide (p.id = s.currentPlatformId + classifyPeak s.peakVolume)) with
        | some p => p.x + PLATFORM_WIDTH / 2 - CHICKEN_SIZE / 2
        | none => s.chicken.x + UNIT_DISTANCE * (classifyPeak s.peakVolume : ℚ)) =
        c.x + 20 + UNIT_DISTANCE * (classifyPeak s.peakVolume : ℚ) := by
      rcases hfind : s.platforms.find?
          (fun p => decide (p.id = s.currentPlatformId + classifyPeak s.peakVolume)) with _ | q
      · rw [hfind]
        rw [hcx]
      · rw [hfind]
        dsimp only
        have hqmem := List.mem_of_find?_eq_some hfind
        have hqpred : q.id = s.currentPlatformId + classifyPeak s.peakVolume := by
          have := List.find?_some hfind
          simpa using this
        have hrel : platRel c q := by
          refine pairwise_rel_of_id_lt h.pairwise hcmem hqmem ?_
          omega
        obtain ⟨_, hxrel⟩ := hrel
        have hcast : (q.id : ℚ) - (c.id : ℚ) = (classifyPeak s.peakVolume : ℚ) := by
          rw [hqpred, hcid]
          push_cast
          ring
        rw [hcast] at hxrel
        have hq : q.x = c.x + UNIT_DISTANCE * (classifyPeak s.peakVolume : ℚ) := by linarith
        rw [hq]
        norm_num [PLATFORM_WIDTH, CHICKEN_SIZE]
        ring
    have hle : s.chicken.x ≤ c.x + 20 + UNIT_DISTANCE * (classifyPeak s.peakVolume : ℚ) := by
      rw [hcx]
      linarith
    refine ⟨h.ne, h.chain, h.dist, h.score_eq, Or.inr hf, ?_, ?_, ?_⟩
    · intro h1 _
      have h1' : (true : Bool) = false := h1
      cases h1'
    · intro _
      exact ⟨c, hcmem, classifyPeak s.peakVolume, hcid, rfl, by omega, hk3, hend,
        le_of_le_of_eq hle hend.symm, le_of_le_of_eq hle hend.symm⟩
    · intro h1
      have h1' : s.chicken.isFalling = true := h1
      rw [hf] at h1'
      cases h1'
  · exact ⟨h.ne, h.chain, h.dist, h.score_eq, h.flags, h.grounded, h.jumping, h.falling⟩
  · exact ⟨h.ne, h.chain, h.dist, h.score_eq, h.flags, h.grounded, h.jumping, h.falling⟩
  · exact ⟨h.ne, h.chain, h.dist, h.score_eq, h.flags, h.grounded, h.jumping, h.falling⟩

theorem jumpAnim_invCore {s : GameState} (i : TickInput) (h : InvCore s) :
    InvCore (jumpAnim s i) := by
  unfold jumpAnim
  dsimp only
  split_ifs with hj hp
  · -- the jump animation has completed: landing or falling
    have hfall : s.chicken.isFalling = false := by
      rcases h.flags with h1 | h1
      · rw [hj] at h1
        cases h1
      · exact h1
    obtain ⟨c, hcmem, k, hcid, htgt, hk1, hk3, hend, hse, hxe⟩ := h.jumping hj
    rcases hfind : s.platforms.find?
        (fun p => decide (p.id = s.chicken.targetPlatformId)) with _ | q
    · rw [hfind]
      dsimp only
      -- no platform at the target id: the chicken starts falling
      have hp1 : min ((((i.now - s.chicken.jumpStartTime) : ℤ) : ℚ) /
          (JUMP_ANIMATION_DURATION : ℚ)) 1 ≤ 1 := min_le_right _ _
      have hmul : (0:ℚ) ≤ (s.chicken.jumpEndX - s.chicken.jumpStartX) *
          (1 - min ((((i.now - s.chicken.jumpStartTime) : ℤ) : ℚ) /
            (JUMP_ANIMATION_DURATION : ℚ)) 1) :=
        mul_nonneg (sub_nonneg.mpr hse) (sub_nonneg.mpr hp1)
      refine ⟨h.ne, h.chain, h.dist, h.score_eq, Or.inl rfl, ?_, ?_, ?_⟩
      · intro _ habs
        cases habs
      · intro habs
        cases habs
      · intro _
        refine ⟨c, hcmem, hcid, ?_⟩
        have hk3q : (k : ℚ) ≤ 3 := by exact_mod_cast hk3
        have hu : UNIT_DISTANCE * (k:ℚ) ≤ 360 := by
          norm_num [UNIT_DISTANCE]
          linarith
        show s.chicken.jumpStartX + (s.chicken.jumpEndX - s.chicken.jumpStartX) * _ ≤ c.x + 380
        rw [hend] at hmul ⊢
        nlinarith [hmul]
    · rw [hfind]
      dsimp only
      -- landing: snap to the found platform
      have hqmem := List.mem_of_find?_eq_some hfind
      have hqpred : q.id = s.chicken.targetPlatformId := by
        have := List.find?_some hfind
        simpa using this
      refine ⟨h.ne, h.chain, h.dist, rfl, Or.inl rfl, ?_, ?_, ?_⟩
      · intro _ _
        refine ⟨q, hqmem, hqpred, by simp only [PLATFORM_WIDTH, CHICKEN_SIZE]; ring⟩
      · intro habs
        cases habs
      · intro habs
        have habs' : s.chicken.isFalling = true := habs
        rw [hfall] at habs'
        cases habs'
  · -- mid-flight: only the chicken position moves
    have hfall : s.chicken.isFalling = false := by
      rcases h.flags with h1 | h1
      · rw [hj] at h1
        cases h1
      · exact h1
    obtain ⟨c, hcmem, k, hcid, htgt, hk1, hk3, hend, hse, hxe⟩ := h.jumping hj
    have hp1 : min ((((i.now - s.chicken.jumpStartTime) : ℤ) : ℚ) /
        (JUMP_ANIMATION_DURATION : ℚ)) 1 ≤ 1 := min_le_right _ _
    have hmul : (0:ℚ) ≤ (s.chicken.jumpEndX - s.chicken.jumpStartX) *
        (1 - min ((((i.now - s.chicken.jumpStartTime) : ℤ) : ℚ) /
          (JUMP_ANIMATION_DURATION : ℚ)) 1) :=
      mul_nonneg (sub_nonneg.mpr hse) (sub_nonneg.mpr hp1)
    refine ⟨h.ne, h.chain, h.dist, h.score_eq, h.flags, ?_, ?_, ?_⟩
    · intro h1 _
      have h1' : s.chicken.isJumping = false := h1
      rw [hj] at h1'
      cases h1'
    · intro _
      refine ⟨c, hcmem, k, hcid, htgt, hk1, hk3, hend, hse, ?_⟩
      show s.chicken.jumpStartX + (s.chicken.jumpEndX - s.chicken.jumpStartX) * _ ≤ _
      nlinarith [hmul]
    · intro h1
      have h1' : s.chicken.isFalling = true := h1
      rw [hfall] at h1'
      cases h1'
  · exact ⟨h.ne, h.chain, h.dist, h.score_eq, h.flags, h.grounded, h.jumping, h.falling⟩

theorem fallAnim_invCore {s : GameState} (i : TickInput) (a b : ℕ) (h : InvCore s) :
    (∀ g, fallAnim s i a b = Sum.inl g → InvCore g) ∧
      (∀ s', fallAnim s i a b = Sum.inr s' → InvCore s') := by
  unfold fallAnim
  dsimp only
  split_ifs with hf hp
  · constructor
    · intro g hg
      injection hg with hg
      subst hg
      exact ⟨h.ne, h.chain, h.dist, h.score_eq, h.flags, h.grounded, h.jumping, h.falling⟩
    · intro s' hs'
      cases hs'
  · constructor
    · intro g hg
      cases hg
    · intro s' hs'
      injection hs' with hs'
      subst hs'
      exact ⟨h.ne, h.chain, h.dist, h.score_eq, h.flags, h.grounded, h.jumping, h.falling⟩
  · constructor
    · intro g hg
      cases hg
    · intro s' hs'
      injection hs' with hs'
      subst hs'
      exact h

theorem camera_invCore {s : GameState} (c : ℚ) (h : InvCore s) :
    InvCore { s with cameraX := c } :=
  ⟨h.ne, h.chain, h.dist, h.score_eq, h.flags, h.grounded, h.jumping, h.falling⟩

theorem generatePlat_invCore {s : GameState} (n : ℕ) (i : TickInput) (h : InvCore s) :
    InvCore (generatePlat s n i) := by
  unfold generatePlat
  dsimp only
  split_ifs with hgen
  · have hd := genDistance_bounds n i.rand
    obtain ⟨lp, hlast⟩ : ∃ lp, s.platforms.getLast? = some lp :=
      ⟨s.platforms.getLast h.ne, List.getLast?_eq_getLast s.platforms h.ne⟩
    have hlastD : s.platforms.getLastD defaultPlatform = lp := by
      rw [List.getLastD_eq_getLast?, hlast]
      rfl
    refine ⟨by simp, ?_, ?_, h.score_eq, h.flags, ?_, ?_, ?_⟩
    · refine chained_append_singleton h.chain _ ?_
      intro x hx
      rw [hlast, Option.some.injEq] at hx
      subst hx
      rw [hlastD]
      exact ⟨rfl, rfl⟩
    · intro p hp
      rcases List.mem_append.mp hp with hp2 | hp2
      · exact h.dist p hp2
      · rcases List.mem_singleton.mp hp2 with rfl
        exact hd
    · intro h1 h2
      obtain ⟨c, hcmem, hcid, hcx⟩ := h.grounded h1 h2
      exact ⟨c, List.mem_append_left _ hcmem, hcid, hcx⟩
    · intro h1
      obtain ⟨c, hcmem, k, hcid, htgt, hk1, hk3, hend, hse, hxe⟩ := h.jumping h1
      exact ⟨c, List.mem_append_left _ hcmem, k, hcid, htgt, hk1, hk3, hend, hse, hxe⟩
    · intro h1
      obtain ⟨c, hcmem, hcid, hcx⟩ := h.falling h1
      exact ⟨c, List.mem_append_left _ hcmem, hcid, hcx⟩
  · exact h

theorem invCore_chicken_bound {s : GameState} (h : InvCore s) :
    ∃ c ∈ s.platforms, c.id = s.currentPlatformId ∧ s.chicken.x ≤ c.x + 380 := by
  cases hjb : s.chicken.isJumping with
  | true =>
    obtain ⟨c, hcmem, k, hcid, htgt, hk1, hk3, hend, hse, hxe⟩ := h.jumping hjb
    refine ⟨c, hcmem, hcid, ?_⟩
    have hk3q : (k : ℚ) ≤ 3 := by exact_mod_cast hk3
    have : UNIT_DISTANCE * (k:ℚ) ≤ 360 := by
      norm_num [UNIT_DISTANCE]
      linarith
    rw [hend] at hxe
    linarith
  | false =>
    cases hfb : s.chicken.isFalling with
    | true =>
      exact h.falling hfb
    | false =>
      obtain ⟨c, hcmem, hcid, hcx⟩ := h.grounded hjb hfb
      exact ⟨c, hcmem, hcid, by rw [hcx]; linarith⟩

theorem evictPlatforms_invCore {s : GameState} (h : InvCore s)
    (hcam : s.cameraX = s.chicken.x - 200) : InvCore (evictPlatforms s) := by
  have hpw := h.pairwise
  have hxpw : s.platforms.Pairwise (fun a b => a.x < b.x) :=
    hpw.imp (fun hr => platRel_x_lt hr)
  obtain ⟨l₁, l₂, heq, hfil⟩ := filter_gt_suffix s.platforms (s.cameraX - 200) hxpw
  have hsurv : ∀ p ∈ s.platforms, s.chicken.x - 400 < p.x →
      p ∈ (evictPlatforms s).platforms := by
    intro p hpmem hpx
    rw [evictPlatforms_platforms]
    refine List.mem_filter.mpr ⟨hpmem, ?_⟩
    rw [decide_eq_true_eq, hcam]
    linarith
  constructor
  case ne =>
    obtain ⟨lp, hlast⟩ : ∃ lp, s.platforms.getLast? = some lp :=
      ⟨s.platforms.getLast h.ne, List.getLast?_eq_getLast s.platforms h.ne⟩
    obtain ⟨c, hcmem, _, hcx⟩ := invCore_chicken_bound h
    have hcle : c.x ≤ lp.x := mem_x_le_last hpw hlast hcmem
    have hlpmem : lp ∈ s.platforms := List.mem_of_mem_getLast? hlast
    intro habs
    have : lp ∈ (evictPlatforms s).platforms := by
      refine hsurv lp hlpmem ?_
      linarith
    rw [habs] at this
    cases this
  case chain =>
    rw [evictPlatforms_platforms, hfil]
    exact chained_of_append (heq ▸ h.chain)
  case dist =>
    intro p hp
    rw [evictPlatforms_platforms] at hp
    exact h.dist p (List.mem_filter.mp hp).1
  case score_eq => exact h.score_eq
  case flags => exact h.flags
  case grounded =>
    intro h1 h2
    obtain ⟨c, hcmem, hcid, hcx⟩ := h.grounded h1 h2
    refine ⟨c, hsurv c hcmem ?_, hcid, hcx⟩
    rw [hcx]
    linarith
  case jumping =>
    intro h1
    obtain ⟨c, hcmem, k, hcid, htgt, hk1, hk3, hend, hse, hxe⟩ := h.jumping h1
    have hk3q : (k : ℚ) ≤ 3 := by exact_mod_cast hk3
    have hu : UNIT_DISTANCE * (k:ℚ) ≤ 360 := by
      norm_num [UNIT_DISTANCE]
      linarith
    refine ⟨c, hsurv c hcmem ?_, k, hcid, htgt, hk1, hk3, hend, hse, hxe⟩
    rw [hend] at hxe
    linarith
  case falling =>
    intro h1
    obtain ⟨c, hcmem, hcid, hcx⟩ := h.falling h1
    refine ⟨c, hsurv c hcmem ?_, hcid, hcx⟩
    linarith

theorem tick_invCore {s : GameState} (i : TickInput) (h : InvCore s) :
    InvCore (tick s i) := by
  have h0 : InvCore { s with events := ([] : List GEvent) } :=
    ⟨h.ne, h.chain, h.dist, h.score_eq, h.flags, h.grounded, h.jumping, h.falling⟩
  have h1 := detectHop_invCore i h0
  have h2 := jumpAnim_invCore i h1
  unfold tick
  split
  next g hfa =>
    exact (fallAnim_invCore i s.score s.highScore h2).1 g hfa
  next s3 hfa =>
    dsimp only
    have h3 := (fallAnim_invCore i s.score s.highScore h2).2 s3 hfa
    have h4 := camera_invCore (s3.chicken.x - 200) h3
    have h5 := generatePlat_invCore s.score i h4
    have hcam : (generatePlat { s3 with cameraX := s3.chicken.x - 200 } s.score i).cameraX =
        (generatePlat { s3 with cameraX := s3.chicken.x - 200 } s.score i).chicken.x - 200 := by
      rw [generatePlat_cameraX, generatePlat_chicken]
    have h6 := evictPlatforms_invCore h5 hcam
    split_ifs with hgo
    · exact ⟨h6.ne, h6.chain, h6.dist, h6.score_eq, h6.flags, h6.grounded, h6.jumping, h6.falling⟩
    · exact h6

theorem reachable_invCore {s : GameState} (h : Reachable s) : InvCore s := by
  induction h with
  | init high gate rs => exact initGame_invCore high gate rs
  | step i hs hp ih => exact tick_invCore i ih

/-! ### Events emitted by a tick -/

theorem detectHop_cases (s : GameState) (i : TickInput) :
    ((detectHop s i).events = s.events ∧ (detectHop s i).lastHopTime = s.lastHopTime ∧
      ((detectHop s i).soundActive = true → s.soundActive = true ∨ VOLUME_THRESHOLD_1 < i.volume)) ∨
    (∃ k, 0 < k ∧ k ≤ 3 ∧ (detectHop s i).events = s.events ++ [GEvent.jump k i.now] ∧
      (detectHop s i).lastHopTime = i.now ∧ (detectHop s i).soundActive = false ∧
      s.soundActive = true ∧ i.volume ≤ VOLUME_THRESHOLD_1 ∧
      HOP_COOLDOWN < i.now - s.lastHopTime) := by
  unfold detectHop
  dsimp only
  split_ifs with hcond hloud hsa hk
  · exact Or.inl ⟨rfl, rfl, fun _ => Or.inr hloud⟩
  · refine Or.inr ⟨classifyPeak s.peakVolume, hk, classifyPeak_le_three _, rfl, rfl, rfl, hsa,
      le_of_not_lt hloud, hcond.2.2.2⟩
  · exact Or.inl ⟨rfl, rfl, fun habs => by cases habs⟩
  · exact Or.inl ⟨rfl, rfl, fun habs => Or.inl habs⟩
  · exact Or.inl ⟨rfl, rfl, fun habs => Or.inl habs⟩

theorem jumpAnim_events_tail (s : GameState) (i : TickInput) :
    ∃ tl, (jumpAnim s i).events = s.events ++ tl ∧ ∀ k t, GEvent.jump k t ∉ tl := by
  unfold jumpAnim
  dsimp only
  split_ifs with hj hp
  · split
    · exact ⟨[GEvent.landed _], rfl, by intro k t h; simp at h⟩
    · exact ⟨[GEvent.fell], rfl, by intro k t h; simp at h⟩
  · exact ⟨[], by simp, by intro k t h; simp at h⟩
  · exact ⟨[], by simp, by intro k t h; simp at h⟩

theorem jumpAnim_events_prefix (s : GameState) (i : TickInput) {k : ℕ} {t : ℤ}
    (h : GEvent.jump k t ∈ (jumpAnim s i).events) : GEvent.jump k t ∈ s.events := by
  obtain ⟨tl, htl, hno⟩ := jumpAnim_events_tail s i
  rw [htl] at h
  rcases List.mem_append.mp h with h' | h'
  · exact h'
  · exact absurd h' (hno k t)

theorem fallAnim_inl_extra (s : GameState) (i : TickInput) (a b : ℕ) (g : GameState)
    (h : fallAnim s i a b = Sum.inl g) :
    g.events = s.events ++ [GEvent.over] ∧ g.lastHopTime = s.lastHopTime ∧
      g.soundActive = s.soundActive ∧ g.score = s.score := by
  unfold fallAnim at h
  dsimp only at h
  split at h
  · split at h
    · injection h with h
      subst h
      exact ⟨rfl, rfl, rfl, rfl⟩
    · cases h
  · cases h

theorem applyGameOver_events (s : GameState) (a b : ℕ) :
    (applyGameOver s a b).events = s.events ++ [GEvent.over] := rfl

theorem applyGameOver_lastHopTime (s : GameState) (a b : ℕ) :
    (applyGameOver s a b).lastHopTime = s.lastHopTime := rfl

theorem applyGameOver_soundActive (s : GameState) (a b : ℕ) :
    (applyGameOver s a b).soundActive = s.soundActive := rfl

theorem evictPlatforms_lastHopTime (s : GameState) :
    (evictPlatforms s).lastHopTime = s.lastHopTime := rfl

theorem evictPlatforms_soundActive (s : GameState) :
    (evictPlatforms s).soundActive = s.soundActive := rfl

theorem tick_events_structure (s : GameState) (i : TickInput) :
    ∃ tl, (tick s i).events = (detectHop { s with events := [] } i).events ++ tl ∧
      (∀ k t, GEvent.jump k t ∉ tl) ∧
      (tick s i).lastHopTime = (detectHop { s with events := [] } i).lastHopTime ∧
      ((tick s i).soundActive = true →
        (detectHop { s with events := [] } i).soundActive = true) := by
  obtain ⟨tl1, htl1, hno1⟩ := jumpAnim_events_tail (detectHop { s with events := [] } i) i
  unfold tick
  split
  next g hfa =>
    obtain ⟨hev, hlh, hsa, _⟩ := fallAnim_inl_extra _ i s.score s.highScore g hfa
    refine ⟨tl1 ++ [GEvent.over], ?_, ?_, ?_, ?_⟩
    · rw [hev, htl1, List.append_assoc]
    · intro k t h
      rcases List.mem_append.mp h with h' | h'
      · exact hno1 k t h'
      · simp at h'
    · rw [hlh, jumpAnim_lastHopTime]
    · intro h1
      rw [hsa, jumpAnim_soundActive] at h1
      exact h1
  next s3 hfa =>
    obtain ⟨_, _, _, _, hlh, hsa, _, _, _, hev, _⟩ :=
      fallAnim_inr _ i s.score s.highScore s3 hfa
    dsimp only
    split_ifs with hgo
    · refine ⟨tl1 ++ [GEvent.over], ?_, ?_, ?_, ?_⟩
      · rw [applyGameOver_events, evictPlatforms_events, generatePlat_events]
        dsimp only
        rw [hev, htl1, List.append_assoc]
      · intro k t h
        rcases List.mem_append.mp h with h' | h'
        · exact hno1 k t h'
        · simp at h'
      · rw [applyGameOver_lastHopTime, evictPlatforms_lastHopTime, generatePlat_lastHopTime]
        dsimp only
        rw [hlh, jumpAnim_lastHopTime]
      · intro h1
        rw [applyGameOver_soundActive, evictPlatforms_soundActive, generatePlat_soundActive] at h1
        dsimp only at h1
        rw [hsa, jumpAnim_soundActive] at h1
        exact h1
    · refine ⟨tl1, ?_, ?_, ?_, ?_⟩
      · rw [evictPlatforms_events, generatePlat_events]
        dsimp only
        rw [hev, htl1]
      · exact fun k t h => hno1 k t h
      · rw [evictPlatforms_lastHopTime, generatePlat_lastHopTime]
        dsimp only
        rw [hlh, jumpAnim_lastHopTime]
      · intro h1
        rw [evictPlatforms_soundActive, generatePlat_soundActive] at h1
        dsimp only at h1
        rw [hsa, jumpAnim_soundActive] at h1
        exact h1

theorem tickTrigs_cases (s : GameState) (i : TickInput) (n : ℕ) :
    (tickTrigs s i n = [] ∧ (tick s i).lastHopTime = s.lastHopTime) ∨
    (∃ k, tickTrigs s i n = [⟨n, i.now, k, i.volume⟩] ∧ 0 < k ∧ k ≤ 3 ∧
      s.soundActive = true ∧ i.volume ≤ VOLUME_THRESHOLD_1 ∧
      s.lastHopTime + HOP_COOLDOWN < i.now ∧ (tick s i).lastHopTime = i.now) := by
  obtain ⟨tl, hev, hno, hlh, _⟩ := tick_events_structure s i
  have htail : tl.filterMap (fun e => match e with
      | GEvent.jump k t => some (⟨n, t, k, i.volume⟩ : Trig)
      | _ => none) = [] := by
    apply List.filterMap_eq_nil_iff.mpr
    intro e he
    cases e with
    | jump k t => exact absurd he (hno k t)
    | landed id => rfl
    | fell => rfl
    | over => rfl
  rcases detectHop_cases { s with events := [] } i with
    ⟨hde, hdl, _⟩ | ⟨k, hk, hk3, hde, hdl, _, hsa, hvol, hcd⟩
  · left
    constructor
    · unfold tickTrigs
      rw [hev, hde]
      show (([] : List GEvent) ++ tl).filterMap _ = []
      rw [List.nil_append]
      exact htail
    · rw [hlh, hdl]
  · right
    refine ⟨k, ?_, hk, hk3, hsa, hvol, ?_, by rw [hlh, hdl]⟩
    · unfold tickTrigs
      rw [hev, hde]
      show (([] : List GEvent) ++ [GEvent.jump k i.now] ++ tl).filterMap _ = _
      rw [List.nil_append, List.filterMap_append, htail, List.append_nil]
      rfl
    · have hcd' : HOP_COOLDOWN < i.now - s.lastHopTime := hcd
      omega

theorem tick_soundActive_mono (s : GameState) (i : TickInput) :
    (tick s i).soundActive = true →
      s.soundActive = true ∨ VOLUME_THRESHOLD_1 < i.volume := by
  obtain ⟨tl, _, _, _, hsa⟩ := tick_events_structure s i
  intro h1
  have h2 := hsa h1
  rcases detectHop_cases { s with events := [] } i with
    ⟨_, _, hmono⟩ | ⟨k, _, _, _, _, hfalse, _, _, _⟩
  · exact hmono h2
  · rw [hfalse] at h2
    cases h2

theorem runTrigs_facts : ∀ (l : List TickInput) (s : GameState) (n : ℕ),
    (∀ a ∈ runTrigs s n l, s.lastHopTime + HOP_COOLDOWN < a.time ∧ 0 < a.strength ∧
      a.strength ≤ 3 ∧ a.volume ≤ VOLUME_THRESHOLD_1 ∧ n ≤ a.idx) ∧
    List.Chain' (fun a b => a.time + HOP_COOLDOWN < b.time) (runTrigs s n l) := by
  intro l
  induction l with
  | nil =>
    intro s n
    exact ⟨fun a ha => absurd ha (List.not_mem_nil a), List.chain'_nil⟩
  | cons i rest ih =>
    intro s n
    show (∀ a ∈ tickTrigs s i n ++ runTrigs (tick s i) (n+1) rest, _) ∧
      List.Chain' _ (tickTrigs s i n ++ runTrigs (tick s i) (n+1) rest)
    obtain ⟨hall, hchain⟩ := ih (tick s i) (n+1)
    rcases tickTrigs_cases s i n with ⟨hnil, hlh⟩ | ⟨k, hone, hk, hk3, hsa, hvol, hcd, hlh⟩
    · rw [hnil, List.nil_append]
      constructor
      · intro a ha
        obtain ⟨ht, h1, h2, h3, h4⟩ := hall a ha
        rw [hlh] at ht
        exact ⟨ht, h1, h2, h3, by omega⟩
      · exact hchain
    · rw [hone, List.singleton_append]
      constructor
      · intro a ha
        rcases List.mem_cons.mp ha with rfl | ha2
        · exact ⟨hcd, hk, hk3, hvol, le_refl n⟩
        · obtain ⟨ht, h1, h2, h3, h4⟩ := hall a ha2
          rw [hlh] at ht
          have h350 : HOP_COOLDOWN = (350:ℤ) := rfl
          refine ⟨by omega, h1, h2, h3, by omega⟩
      · rw [List.chain'_cons']
        constructor
        · intro y hy
          have hymem : y ∈ runTrigs (tick s i) (n+1) rest := List.mem_of_mem_head? hy
          obtain ⟨ht, _, _, _, _⟩ := hall y hymem
          rw [hlh] at ht
          exact ht
        · exact hchain

theorem runTrigs_edge (L : List TickInput) : ∀ (l : List TickInput) (s : GameState) (n : ℕ),
    (∀ m, l.get? m = L.get? (n + m)) →
    (s.soundActive = true →
      ∃ j, j < n ∧ ∃ iv, L.get? j = some iv ∧ VOLUME_THRESHOLD_1 < iv.volume) →
    ∀ a ∈ runTrigs s n l, a.volume ≤ VOLUME_THRESHOLD_1 ∧
      ∃ j, j < a.idx ∧ ∃ iv, L.get? j = some iv ∧ VOLUME_THRESHOLD_1 < iv.volume := by
  intro l
  induction l with
  | nil =>
    intro s n _ _ a ha
    exact absurd ha (List.not_mem_nil a)
  | cons i rest ih =>
    intro s n hget hsa a ha
    have hget0 : L.get? n = some i := by
      have h0 := hget 0
      simpa using h0.symm
    have hgetS : ∀ m, rest.get? m = L.get? (n + 1 + m) := by
      intro m
      have h1 := hget (m + 1)
      rw [List.get?_cons_succ] at h1
      rw [h1]
      congr 1
      omega
    have ha2 : a ∈ tickTrigs s i n ++ runTrigs (tick s i) (n+1) rest := ha
    have hstep : (tick s i).soundActive = true →
        ∃ j, j < n + 1 ∧ ∃ iv, L.get? j = some iv ∧ VOLUME_THRESHOLD_1 < iv.volume := by
      intro h1
      rcases tick_soundActive_mono s i h1 with h2 | h2
      · obtain ⟨j, hj, w⟩ := hsa h2
        exact ⟨j, by omega, w⟩
      · exact ⟨n, by omega, i, hget0, h2⟩
    rcases tickTrigs_cases s i n with ⟨hnil, _⟩ | ⟨k, hone, _, _, hsa2, hvol, _, _⟩
    · rw [hnil, List.nil_append] at ha2
      exact ih (tick s i) (n + 1) hgetS hstep a ha2
    · rw [hone, List.singleton_append] at ha2
      rcases List.mem_cons.mp ha2 with rfl | ha3
      · refine ⟨hvol, ?_⟩
        obtain ⟨j, hj, w⟩ := hsa hsa2
        exact ⟨j, hj, w⟩
      · obtain ⟨hv, j, hj, w⟩ := ih (tick s i) (n + 1) hgetS hstep a ha3
        exact ⟨hv, j, hj, w⟩

/-! ### Outcome characterizations used by the functional claims -/

theorem detectHop_skip (s : GameState) (i : TickInput)
    (h : ¬(s.chicken.isJumping = false ∧ s.chicken.isFalling = false ∧
      s.soundEffectGate < i.now ∧ HOP_COOLDOWN < i.now - s.lastHopTime)) :
    detectHop s i = s := by
  unfold detectHop
  rw [if_neg h]

theorem jumpAnim_skip (s : GameState) (i : TickInput)
    (hj : s.chicken.isJumping = false) : jumpAnim s i = s := by
  unfold jumpAnim
  rw [if_neg (by rw [hj]; exact Bool.false_ne_true)]

theorem fallAnim_skip (s : GameState) (i : TickInput) (a b : ℕ)
    (hf : s.chicken.isFalling = false) : fallAnim s i a b = Sum.inr s := by
  unfold fallAnim
  rw [if_neg (by rw [hf]; exact Bool.false_ne_true)]

theorem progress_one {start : ℤ} {dur : ℤ} {now : ℤ} (hdur : (0:ℚ) < (dur : ℚ))
    (h : start + dur ≤ now) :
    (1:ℚ) ≤ min (((now - start : ℤ) : ℚ) / (dur : ℚ)) 1 := by
  refine le_min ?_ le_rfl
  rw [le_div_iff₀ hdur]
  have : (dur : ℚ) ≤ ((now - start : ℤ) : ℚ) := by
    have hz : dur ≤ now - start := by omega
    exact_mod_cast hz
  linarith

theorem jumpAnim_landing (s : GameState) (i : TickInput) {q : Platform}
    (hj : s.chicken.isJumping = true)
    (hp : s.chicken.jumpStartTime + JUMP_ANIMATION_DURATION ≤ i.now)
    (hfind : s.platforms.find? (fun p => decide (p.id = s.chicken.targetPlatformId)) = some q) :
    jumpAnim s i = { s with
      chicken := { s.chicken with
        x := q.x + PLATFORM_WIDTH / 2 - CHICKEN_SIZE / 2
        y := PLATFORM_Y - CHICKEN_SIZE
        isJumping := false
        jumpDistance := 0 }
      currentPlatformId := s.chicken.targetPlatformId
      score := s.chicken.targetPlatformId
      soundEffectGate := i.now + 250
      events := s.events ++ [GEvent.landed s.chicken.targetPlatformId] } := by
  have hprog := progress_one (by norm_num [JUMP_ANIMATION_DURATION]) hp
  unfold jumpAnim
  rw [if_pos hj]
  dsimp only
  rw [if_pos hprog, hfind]

theorem jumpAnim_fell (s : GameState) (i : TickInput)
    (hj : s.chicken.isJumping = true)
    (hp : s.chicken.jumpStartTime + JUMP_ANIMATION_DURATION ≤ i.now)
    (hfind : s.platforms.find? (fun p => decide (p.id = s.chicken.targetPlatformId)) = none) :
    jumpAnim s i = { s with
      chicken := { s.chicken with
        x := s.chicken.jumpStartX + (s.chicken.jumpEndX - s.chicken.jumpStartX) *
          min (((i.now - s.chicken.jumpStartTime : ℤ) : ℚ) / (JUMP_ANIMATION_DURATION : ℚ)) 1
        y := PLATFORM_Y - CHICKEN_SIZE -
          i.sinv * (80 + (s.chicken.jumpDistance : ℚ) * 20)
        isJumping := false
        isFalling := true
        fallStartTime := i.now
        jumpDistance := 0 }
      soundEffectGate := i.now + 250
      events := s.events ++ [GEvent.fell] } := by
  have hprog := progress_one (by norm_num [JUMP_ANIMATION_DURATION]) hp
  unfold jumpAnim
  rw [if_pos hj]
  dsimp only
  rw [if_pos hprog, hfind]

theorem fallAnim_complete (s : GameState) (i : TickInput) (a b : ℕ)
    (hf : s.chicken.isFalling = true)
    (hp : s.chicken.fallStartTime + FALL_DURATION ≤ i.now) :
    fallAnim s i a b = Sum.inl (applyGameOver { s with
      chicken := { s.chicken with
        y := PLATFORM_Y - CHICKEN_SIZE +
          (min (((i.now - s.chicken.fallStartTime : ℤ) : ℚ) / (FALL_DURATION : ℚ)) 1) *
          (min (((i.now - s.chicken.fallStartTime : ℤ) : ℚ) / (FALL_DURATION : ℚ)) 1) *
          CANVAS_HEIGHT } } a b) := by
  have hprog := progress_one (by norm_num [FALL_DURATION]) hp
  unfold fallAnim
  rw [if_pos hf]
  dsimp only
  rw [if_pos hprog]

theorem jumpAnim_main (s : GameState) (i : TickInput) :
    ((jumpAnim s i).score = s.score ∧
      (jumpAnim s i).currentPlatformId = s.currentPlatformId ∧
      (∀ id, GEvent.landed id ∈ (jumpAnim s i).events → GEvent.landed id ∈ s.events)) ∨
    (∃ q, s.chicken.isJumping = true ∧
      s.platforms.find? (fun p => decide (p.id = s.chicken.targetPlatformId)) = some q ∧
      jumpAnim s i = { s with
        chicken := { s.chicken with
          x := q.x + PLATFORM_WIDTH / 2 - CHICKEN_SIZE / 2
          y := PLATFORM_Y - CHICKEN_SIZE
          isJumping := false
          jumpDistance := 0 }
        currentPlatformId := s.chicken.targetPlatformId
        score := s.chicken.targetPlatformId
        soundEffectGate := i.now + 250
        events := s.events ++ [GEvent.landed s.chicken.targetPlatformId] }) := by
  unfold jumpAnim
  dsimp only
  split_ifs with hj hp
  · rcases hfind : s.platforms.find?
        (fun p => decide (p.id = s.chicken.targetPlatformId)) with _ | q
    · rw [hfind]
      dsimp only
      left
      refine ⟨rfl, rfl, ?_⟩
      intro id hid
      rcases List.mem_append.mp hid with h1 | h1
      · exact h1
      · simp at h1
  -- found: landing
    · right
      refine ⟨q, hj, hfind, ?_⟩
      rw [hfind]
  · left
    exact ⟨rfl, rfl, fun id hid => hid⟩
  · left
    exact ⟨rfl, rfl, fun id hid => hid⟩

theorem fallAnim_mid (s : GameState) (i : TickInput) (a b : ℕ)
    (hf : s.chicken.isFalling = true)
    (hp : i.now < s.chicken.fallStartTime + FALL_DURATION) :
    fallAnim s i a b = Sum.inr { s with
      chicken := { s.chicken with
        y := PLATFORM_Y - CHICKEN_SIZE +
          (min (((i.now - s.chicken.fallStartTime : ℤ) : ℚ) / (FALL_DURATION : ℚ)) 1) *
          (min (((i.now - s.chicken.fallStartTime : ℤ) : ℚ) / (FALL_DURATION : ℚ)) 1) *
          CANVAS_HEIGHT } } := by
  have hlt : min (((i.now - s.chicken.fallStartTime : ℤ) : ℚ) / (FALL_DURATION : ℚ)) 1 < 1 := by
    have hz : i.now - s.chicken.fallStartTime < FALL_DURATION := by omega
    have hq : ((i.now - s.chicken.fallStartTime : ℤ) : ℚ) < (FALL_DURATION : ℚ) := by
      exact_mod_cast hz
    calc min (((i.now - s.chicken.fallStartTime : ℤ) : ℚ) / (FALL_DURATION : ℚ)) 1
        ≤ ((i.now - s.chicken.fallStartTime : ℤ) : ℚ) / (FALL_DURATION : ℚ) := min_le_left _ _
      _ < 1 := by
          rw [div_lt_one (by norm_num [FALL_DURATION])]
          exact hq
  unfold fallAnim
  rw [if_pos hf]
  dsimp only
  rw [if_neg (not_le.mpr hlt)]

theorem tick_eq_of_phases (s : GameState) (i : TickInput) (s3 : GameState)
    (hfa : fallAnim (jumpAnim (detectHop { s with events := [] } i) i) i
      s.score s.highScore = Sum.inr s3) :
    tick s i =
      (if CANVAS_HEIGHT <
          (evictPlatforms (generatePlat { s3 with cameraX := s3.chicken.x - 200 }
            s.score i)).chicken.y ∨
        ((evictPlatforms (generatePlat { s3 with cameraX := s3.chicken.x - 200 }
            s.score i)).chicken.isJumping = true ∧
          ((generatePlat { s3 with cameraX := s3.chicken.x - 200 }
            s.score i).platforms.getLastD defaultPlatform).x + PLATFORM_WIDTH <
          (evictPlatforms (generatePlat { s3 with cameraX := s3.chicken.x - 200 }
            s.score i)).chicken.x) then
        applyGameOver (evictPlatforms (generatePlat { s3 with cameraX := s3.chicken.x - 200 }
          s.score i)) s.score s.highScore
      else
        evictPlatforms (generatePlat { s3 with cameraX := s3.chicken.x - 200 } s.score i)) := by
  unfold tick
  split
  next g hg =>
    rw [hfa] at hg
    cases hg
  next s3' hg =>
    rw [hfa] at hg
    injection hg with hg
    subst hg
    rfl

theorem tick_eq_of_fall_complete (s : GameState) (i : TickInput) (g : GameState)
    (hfa : fallAnim (jumpAnim (detectHop { s with events := [] } i) i) i
      s.score s.highScore = Sum.inl g) :
    tick s i = g := by
  unfold tick
  split
  next g' hg =>
    rw [hfa] at hg
    injection hg with hg
    subst hg
    rfl
  next s3' hg =>
    rw [hfa] at hg
    cases hg

theorem tick_score_main (s : GameState) (i : TickInput) :
    ((tick s i).score = s.score ∧ (tick s i).currentPlatformId = s.currentPlatformId ∧
      (∀ id, GEvent.landed id ∉ (tick s i).events)) ∨
    (∃ tgt, (tick s i).score = tgt ∧ (tick s i).currentPlatformId = tgt ∧
      GEvent.landed tgt ∈ (tick s i).events ∧
      (∀ id, GEvent.landed id ∈ (tick s i).events → id = tgt) ∧
      (detectHop { s with events := [] } i).chicken.isJumping = true ∧
      tgt = (detectHop { s with events := [] } i).chicken.targetPlatformId) := by
  have hs1ev : ∀ id, GEvent.landed id ∉ (detectHop { s with events := [] } i).events := by
    intro id hid
    rcases detectHop_cases { s with events := [] } i with ⟨hde, _, _⟩ | ⟨k, _, _, hde, _⟩
    · rw [hde] at hid
      simp at hid
    · rw [hde] at hid
      simp at hid
  have hs1sc : (detectHop { s with events := [] } i).score = s.score := detectHop_score _ i
  have hs1cur : (detectHop { s with events := [] } i).currentPlatformId =
      s.currentPlatformId := detectHop_currentPlatformId _ i
  rcases jumpAnim_main (detectHop { s with events := [] } i) i with
    ⟨hsc2, hcur2, hev2⟩ | ⟨q, hj1, hfind1, heq2⟩
  · -- no landing this tick
    left
    unfold tick
    split
    next g hg =>
      obtain ⟨hev, _, _, hsc⟩ := fallAnim_inl_extra _ i s.score s.highScore g hg
      have hcurg : g.currentPlatformId = (jumpAnim (detectHop { s with events := [] } i) i).currentPlatformId := by
        obtain ⟨_, _, hc, _⟩ := fallAnim_inl _ i s.score s.highScore g hg
        exact hc
      refine ⟨by rw [hsc, hsc2, hs1sc], by rw [hcurg, hcur2, hs1cur], ?_⟩
      intro id hid
      rw [hev] at hid
      rcases List.mem_append.mp hid with h1 | h1
      · exact hs1ev id (hev2 id h1)
      · simp at h1
    next s3 hg =>
      obtain ⟨_, _, hc3, hsc3, _, _, _, _, _, hev3, _⟩ :=
        fallAnim_inr _ i s.score s.highScore s3 hg
      dsimp only
      split_ifs with hgo
      · refine ⟨?_, ?_, ?_⟩
        · rw [applyGameOver_score, evictPlatforms_score, generatePlat_score]
          dsimp only
          rw [hsc3, hsc2, hs1sc]
        · rw [applyGameOver_currentPlatformId, evictPlatforms_currentPlatformId,
            generatePlat_currentPlatformId]
          dsimp only
          rw [hc3, hcur2, hs1cur]
        · intro id hid
          rw [applyGameOver_events, evictPlatforms_events, generatePlat_events] at hid
          dsimp only at hid
          rw [hev3] at hid
          rcases List.mem_append.mp hid with h1 | h1
          · exact hs1ev id (hev2 id h1)
          · simp at h1
      · refine ⟨?_, ?_, ?_⟩
        · rw [evictPlatforms_score, generatePlat_score]
          dsimp only
          rw [hsc3, hsc2, hs1sc]
        · rw [evictPlatforms_currentPlatformId, generatePlat_currentPlatformId]
          dsimp only
          rw [hc3, hcur2, hs1cur]
        · intro id hid
          rw [evictPlatforms_events, generatePlat_events] at hid
          dsimp only at hid
          rw [hev3] at hid
          exact hs1ev id (hev2 id hid)
  · -- the jump completed on a live platform: landing
    right
    refine ⟨(detectHop { s with events := [] } i).chicken.targetPlatformId, ?_⟩
    have hsc2 : (jumpAnim (detectHop { s with events := [] } i) i).score =
        (detectHop { s with events := [] } i).chicken.targetPlatformId := by
      rw [heq2]
    have hcur2 : (jumpAnim (detectHop { s with events := [] } i) i).currentPlatformId =
        (detectHop { s with events := [] } i).chicken.targetPlatformId := by
      rw [heq2]
    have hev2 : (jumpAnim (detectHop { s with events := [] } i) i).events =
        (detectHop { s with events := [] } i).events ++
          [GEvent.landed (detectHop { s with events := [] } i).chicken.targetPlatformId] := by
      rw [heq2]
    unfold tick
    split
    next g hg =>
      obtain ⟨hev, _, _, hsc⟩ := fallAnim_inl_extra _ i s.score s.highScore g hg
      have hcurg : g.currentPlatformId =
          (jumpAnim (detectHop { s with events := [] } i) i).currentPlatformId := by
        obtain ⟨_, _, hc, _⟩ := fallAnim_inl _ i s.score s.highScore g hg
        exact hc
      refine ⟨by rw [hsc, hsc2], by rw [hcurg, hcur2], ?_, ?_, hj1, rfl⟩
      · rw [hev, hev2]
        simp
      · intro id hid
        rw [hev, hev2] at hid
        rcases List.mem_append.mp hid with h1 | h1
        · rcases List.mem_append.mp h1 with h2 | h2
          · exact absurd h2 (hs1ev id)
          · simpa using h2
        · simp at h1
    next s3 hg =>
      obtain ⟨_, _, hc3, hsc3, _, _, _, _, _, hev3, _⟩ :=
        fallAnim_inr _ i s.score s.highScore s3 hg
      dsimp only
      split_ifs with hgo
      · refine ⟨?_, ?_, ?_, ?_, hj1, rfl⟩
        · rw [applyGameOver_score, evictPlatforms_score, generatePlat_score]
          dsimp only
          rw [hsc3, hsc2]
        · rw [applyGameOver_currentPlatformId, evictPlatforms_currentPlatformId,
            generatePlat_currentPlatformId]
          dsimp only
          rw [hc3, hcur2]
        · rw [applyGameOver_events, evictPlatforms_events, generatePlat_events]
          dsimp only
          rw [hev3, hev2]
          simp
        · intro id hid
          rw [applyGameOver_events, evictPlatforms_events, generatePlat_events] at hid
          dsimp only at hid
          rw [hev3, hev2] at hid
          rcases List.mem_append.mp hid with h1 | h1
          · rcases List.mem_append.mp h1 with h2 | h2
            · exact absurd h2 (hs1ev id)
            · simpa using h2
          · simp at h1
      · refine ⟨?_, ?_, ?_, ?_, hj1, rfl⟩
        · rw [evictPlatforms_score, generatePlat_score]
          dsimp only
          rw [hsc3, hsc2]
        · rw [evictPlatforms_currentPlatformId, generatePlat_currentPlatformId]
          dsimp only
          rw [hc3, hcur2]
        · rw [evictPlatforms_events, generatePlat_events]
          dsimp only
          rw [hev3, hev2]
          simp
        · intro id hid
          rw [evictPlatforms_events, generatePlat_events] at hid
          dsimp only at hid
          rw [hev3, hev2] at hid
          rcases List.mem_append.mp hid with h1 | h1
          · exact absurd h1 (hs1ev id)
          · simpa using h1

theorem applyGameOver_gameOver (s : GameState) (a b : ℕ) :
    (applyGameOver s a b).gameOver = true := rfl

theorem applyGameOver_isPlaying (s : GameState) (a b : ℕ) :
    (applyGameOver s a b).isPlaying = false := rfl

theorem applyGameOver_highScore (s : GameState) (a b : ℕ) :
    (applyGameOver s a b).highScore = if b < a then a else b := rfl

theorem evictPlatforms_gameOver (s : GameState) :
    (evictPlatforms s).gameOver = s.gameOver := rfl

theorem evictPlatforms_isPlaying (s : GameState) :
    (evictPlatforms s).isPlaying = s.isPlaying := rfl

theorem evictPlatforms_highScore (s : GameState) :
    (evictPlatforms s).highScore = s.highScore := rfl

theorem find_eq_of_pairwise {l : List Platform} (hp : l.Pairwise platRel) {p : Platform} {t : ℕ}
    (hmem : p ∈ l) (hid : p.id = t) :
    l.find? (fun x => decide (x.id = t)) = some p := by
  induction l with
  | nil => cases hmem
  | cons a l ih =>
    rcases List.mem_cons.mp hmem with rfl | hm
    · have hpa : decide (p.id = t) = true := decide_eq_true hid
      simp [List.find?_cons, hpa]
    · have halt : a.id < p.id := ((List.pairwise_cons.mp hp).1 p hm).1
      have hpa : decide (a.id = t) = false := by
        simp only [decide_eq_false_iff_not]
        omega
      simp only [List.find?_cons, hpa]
      exact ih (List.pairwise_cons.mp hp).2 hm

theorem tick_grounded_facts {s : GameState} (i : TickInput)
    (hjmp2 : (jumpAnim (detectHop { s with events := ([] : List GEvent) } i) i).chicken.isJumping = false)
    (hfall2 : (jumpAnim (detectHop { s with events := ([] : List GEvent) } i) i).chicken.isFalling = false)
    (hy : ¬ CANVAS_HEIGHT < (jumpAnim (detectHop { s with events := ([] : List GEvent) } i) i).chicken.y) :
    (tick s i).chicken = (jumpAnim (detectHop { s with events := ([] : List GEvent) } i) i).chicken ∧
    (tick s i).score = (jumpAnim (detectHop { s with events := ([] : List GEvent) } i) i).score ∧
    (tick s i).currentPlatformId =
      (jumpAnim (detectHop { s with events := ([] : List GEvent) } i) i).currentPlatformId ∧
    (tick s i).gameOver = (jumpAnim (detectHop { s with events := ([] : List GEvent) } i) i).gameOver ∧
    (tick s i).isPlaying = (jumpAnim (detectHop { s with events := ([] : List GEvent) } i) i).isPlaying ∧
    (tick s i).events = (jumpAnim (detectHop { s with events := ([] : List GEvent) } i) i).events := by
  have hfa := fallAnim_skip (jumpAnim (detectHop { s with events := ([] : List GEvent) } i) i) i
    s.score s.highScore hfall2
  rw [tick_eq_of_phases s i _ hfa]
  split_ifs with hcond
  · exfalso
    rw [evictPlatforms_chicken, generatePlat_chicken] at hcond
    dsimp only at hcond
    rcases hcond with h | ⟨hj2, -⟩
    · exact hy h
    · rw [hjmp2] at hj2
      cases hj2
  · refine ⟨?_, ?_, ?_, ?_, ?_, ?_⟩
    · rw [evictPlatforms_chicken, generatePlat_chicken]
    · rw [evictPlatforms_score, generatePlat_score]
    · rw [evictPlatforms_currentPlatformId, generatePlat_currentPlatformId]
    · rw [evictPlatforms_gameOver, generatePlat_gameOver]
    · rw [evictPlatforms_isPlaying, generatePlat_isPlaying]
    · rw [evictPlatforms_events, generatePlat_events]

theorem tick_fall_mid_facts {s : GameState} (i : TickInput)
    (hjmp2 : (jumpAnim (detectHop { s with events := ([] : List GEvent) } i) i).chicken.isJumping = false)
    (hfall2 : (jumpAnim (detectHop { s with events := ([] : List GEvent) } i) i).chicken.isFalling = true)
    (hmidp : i.now <
      (jumpAnim (detectHop { s with events := ([] : List GEvent) } i) i).chicken.fallStartTime +
        FALL_DURATION)
    (hy : ¬ CANVAS_HEIGHT < PLATFORM_Y - CHICKEN_SIZE +
      (min (((i.now -
        (jumpAnim (detectHop { s with events := ([] : List GEvent) } i) i).chicken.fallStartTime :
          ℤ) : ℚ) / (FALL_DURATION : ℚ)) 1) *
      (min (((i.now -
        (jumpAnim (detectHop { s with events := ([] : List GEvent) } i) i).chicken.fallStartTime :
          ℤ) : ℚ) / (FALL_DURATION : ℚ)) 1) * CANVAS_HEIGHT) :
    (tick s i).chicken.isJumping = false ∧
    (tick s i).chicken.isFalling = true ∧
    (tick s i).chicken.fallStartTime =
      (jumpAnim (detectHop { s with events := ([] : List GEvent) } i) i).chicken.fallStartTime ∧
    (tick s i).score = (jumpAnim (detectHop { s with events := ([] : List GEvent) } i) i).score ∧
    (tick s i).gameOver = (jumpAnim (detectHop { s with events := ([] : List GEvent) } i) i).gameOver ∧
    (tick s i).events = (jumpAnim (detectHop { s with events := ([] : List GEvent) } i) i).events := by
  have hfa := fallAnim_mid (jumpAnim (detectHop { s with events := ([] : List GEvent) } i) i) i
    s.score s.highScore hfall2 hmidp
  rw [tick_eq_of_phases s i _ hfa]
  split_ifs with hcond
  · exfalso
    rw [evictPlatforms_chicken, generatePlat_chicken] at hcond
    dsimp only at hcond
    rcases hcond with h | ⟨hj2, -⟩
    · exact hy h
    · rw [hjmp2] at hj2
      cases hj2
  · refine ⟨?_, ?_, ?_, ?_, ?_, ?_⟩
    · rw [evictPlatforms_chicken, generatePlat_chicken]
      exact hjmp2
    · rw [evictPlatforms_chicken, generatePlat_chicken]
      exact hfall2
    · rw [evictPlatforms_chicken, generatePlat_chicken]
    · rw [evictPlatforms_score, generatePlat_score]
    · rw [evictPlatforms_gameOver, generatePlat_gameOver]
    · rw [evictPlatforms_events, generatePlat_events]

theorem tick1_eval : tick sampleInit sampleLoud = sampleTracking := by
  norm_num [tick, detectHop, jumpAnim, fallAnim, generatePlat, evictPlatforms, applyGameOver,
    sampleLoud, sampleInit, sampleTracking, initGame, initPlatformsAux, initDistance,
    randIndex4, initChicken, runPlats, genDistance,
    VOLUME_THRESHOLD_1, VOLUME_THRESHOLD_2, VOLUME_THRESHOLD_3,
    HOP_COOLDOWN, UNIT_DISTANCE, PLATFORM_Y, PLATFORM_WIDTH, CHICKEN_SIZE, CANVAS_WIDTH,
    CANVAS_HEIGHT, JUMP_ANIMATION_DURATION, FALL_DURATION, classifyPeak, max_def, min_def,
    List.getLastD, defaultPlatform]

theorem tick2_eval : tick sampleTracking sampleQuiet = sampleJumping := by
  norm_num [tick, detectHop, jumpAnim, fallAnim, generatePlat, evictPlatforms, applyGameOver,
    sampleQuiet, sampleTracking, sampleJumping, initChicken, runPlats,
    VOLUME_THRESHOLD_1, VOLUME_THRESHOLD_2, VOLUME_THRESHOLD_3,
    HOP_COOLDOWN, UNIT_DISTANCE, PLATFORM_Y, PLATFORM_WIDTH, CHICKEN_SIZE, CANVAS_WIDTH,
    CANVAS_HEIGHT, JUMP_ANIMATION_DURATION, FALL_DURATION, classifyPeak, max_def, min_def,
    List.getLastD, defaultPlatform]

theorem sampleJumping_reachable : Reachable sampleJumping := by
  have h1 : Reachable sampleTracking := by
    rw [← tick1_eval]
    exact Reachable.step sampleLoud (Reachable.init 0 0 (fun _ => 0)) rfl
  rw [← tick2_eval]
  exact Reachable.step sampleQuiet h1 rfl

theorem sampleFallen_gameOver : (tick sampleFallen sampleFallTick).gameOver = true := by
  have hd : detectHop { sampleFallen with events := ([] : List GEvent) } sampleFallTick =
      { sampleFallen with events := ([] : List GEvent) } := by
    apply detectHop_skip
    rintro ⟨-, hf, -⟩
    exact absurd hf (by decide)
  have hj : jumpAnim { sampleFallen with events := ([] : List GEvent) } sampleFallTick =
      { sampleFallen with events := ([] : List GEvent) } := jumpAnim_skip _ _ (by decide)
  have hfc := fallAnim_complete { sampleFallen with events := ([] : List GEvent) } sampleFallTick
    sampleFallen.score sampleFallen.highScore (by decide) (by decide)
  have htick := tick_eq_of_fall_complete sampleFallen sampleFallTick _ (by rw [hd, hj]; exact hfc)
  rw [htick]
  rfl

/-! ### The claims -/

theorem midTick_invCore {s : GameState} (i : TickInput) (h : InvCore s)
    {m : GameState} (hm : midTick s i = some m) :
    InvCore m ∧ m.cameraX = m.chicken.x - 200 := by
  have h0 : InvCore { s with events := ([] : List GEvent) } :=
    ⟨h.ne, h.chain, h.dist, h.score_eq, h.flags, h.grounded, h.jumping, h.falling⟩
  have h1 := detectHop_invCore i h0
  have h2 := jumpAnim_invCore i h1
  unfold midTick at hm
  split at hm
  · cases hm
  next s3 hfa =>
    injection hm with hm
    subst hm
    have h3 := (fallAnim_invCore i s.score s.highScore h2).2 s3 hfa
    constructor
    · exact generatePlat_invCore s.score i (camera_invCore _ h3)
    · rw [generatePlat_cameraX, generatePlat_chicken]

theorem sampleMid_spec : midTick sampleInit sampleStill = some sampleMid := by
  have hd : detectHop { sampleInit with events := ([] : List GEvent) } sampleStill =
      { sampleInit with events := ([] : List GEvent) } := by
    apply detectHop_skip
    rintro ⟨-, -, hgate, -⟩
    have hg : (0:ℤ) < 0 := hgate
    omega
  have hj : jumpAnim { sampleInit with events := ([] : List GEvent) } sampleStill =
      { sampleInit with events := ([] : List GEvent) } := jumpAnim_skip _ _ rfl
  have hf : fallAnim { sampleInit with events := ([] : List GEvent) } sampleStill
      sampleInit.score sampleInit.highScore =
      Sum.inr { sampleInit with events := ([] : List GEvent) } := fallAnim_skip _ _ _ _ rfl
  unfold midTick
  rw [hd, hj, hf]
  rfl

/-- C1: in every reachable session state, the per-tick platform eviction
(which keeps exactly the platforms whose x lies strictly beyond
cameraX - 200, the camera following the player at chicken.x - 200) never
removes the platform whose id equals the player's current platform id,
nor, while a jump is in flight, the platform whose id equals the
in-flight target id.  Stated at the point of the tick where eviction
runs (after detection, animation, camera follow and generation). -/
theorem c1_eviction_safe {s : GameState} (hs : Reachable s) (i : TickInput)
    {m : GameState} (hm : midTick s i = some m) :
    ∀ p ∈ m.platforms,
      (p.id = m.currentPlatformId ∨
        (m.chicken.isJumping = true ∧ p.id = m.chicken.targetPlatformId)) →
      p ∈ (evictPlatforms m).platforms := by
  obtain ⟨hinv, hcam⟩ := midTick_invCore i (reachable_invCore hs) hm
  intro p hpmem hpid
  rw [evictPlatforms_platforms]
  refine List.mem_filter.mpr ⟨hpmem, ?_⟩
  rw [decide_eq_true_eq, hcam]
  rcases hpid with hcur | ⟨hj, htgt⟩
  · obtain ⟨c, hcmem, hcid, hcx⟩ := invCore_chicken_bound hinv
    have hpc : p = c :=
      pairwise_id_inj hinv.pairwise hpmem hcmem (by rw [hcur, hcid])
    rw [hpc]
    linarith
  · obtain ⟨c, hcmem, k, hcid, htgt2, hk1, hk3, hend, hse, hxe⟩ := hinv.jumping hj
    have hrel : platRel c p :=
      pairwise_rel_of_id_lt hinv.pairwise hcmem hpmem (by rw [htgt, htgt2, hcid]; omega)
    obtain ⟨hidlt, hxrel⟩ := hrel
    have hcast : (p.id : ℚ) - (c.id : ℚ) = (k : ℚ) := by
      rw [htgt, htgt2, hcid]
      push_cast
      ring
    rw [hcast] at hxrel
    have hpx : p.x = c.x + UNIT_DISTANCE * (k : ℚ) := by linarith
    rw [hend] at hxe
    rw [hpx]
    linarith

theorem c1_witness : (⟨100, 400, 1, 0⟩ : Platform) ∈ (evictPlatforms sampleMid).platforms := by
  refine c1_eviction_safe (Reachable.init 0 0 (fun _ => 0)) sampleStill sampleMid_spec
    ⟨100, 400, 1, 0⟩ ?_ (Or.inl ?_)
  · norm_num [sampleMid, generatePlat, sampleInit, initGame, initPlatformsAux, initDistance,
      randIndex4, initChicken, UNIT_DISTANCE, PLATFORM_Y, CANVAS_WIDTH, PLATFORM_WIDTH,
      CHICKEN_SIZE, List.getLastD, defaultPlatform, genDistance]
  · simp [sampleMid, generatePlat_currentPlatformId, sampleInit, initGame]

/-- C2: over any loudness trace fed to the game loop of a fresh session,
hop triggers are separated by more than HOP_COOLDOWN milliseconds, every
classified strength lies between 1 and 3, and each trigger fires on a
falling edge (its own tick's loudness at or below the lowest threshold)
preceded by a rising edge (an earlier tick whose loudness exceeded the
lowest threshold). -/
theorem c2_trigger_discipline (high : ℕ) (gate : ℤ) (rs : ℕ → ℚ) (L : List TickInput) :
    List.Chain' (fun a b => a.time + HOP_COOLDOWN < b.time)
      (runTrigs (initGame high gate rs) 0 L) ∧
    (∀ a ∈ runTrigs (initGame high gate rs) 0 L, 1 ≤ a.strength ∧ a.strength ≤ 3) ∧
    (∀ a ∈ runTrigs (initGame high gate rs) 0 L,
      a.volume ≤ VOLUME_THRESHOLD_1 ∧
      ∃ j, j < a.idx ∧ ∃ iv, L.get? j = some iv ∧ VOLUME_THRESHOLD_1 < iv.volume) := by
  obtain ⟨hall, hchain⟩ := runTrigs_facts L (initGame high gate rs) 0
  refine ⟨hchain, ?_, ?_⟩
  · intro a ha
    obtain ⟨_, h1, h2, _, _⟩ := hall a ha
    exact ⟨h1, h2⟩
  · refine runTrigs_edge L L (initGame high gate rs) 0 (fun m => by simp) ?_
    intro habs
    have hfalse : (false : Bool) = true := habs
    cases hfalse

/-- C5: in every reachable session state the live platform list is
chained (each platform's id is its predecessor's id plus its own gap,
its x the predecessor's x plus gap times UNIT_DISTANCE), its ids are
strictly increasing (hence duplicate-free), it is sorted by strictly
ascending x, and every gap is between 1 and 3. -/
theorem c5_platform_chain {s : GameState} (hs : Reachable s) :
    Chained s.platforms ∧
    s.platforms.Pairwise (fun p q => p.id < q.id) ∧
    s.platforms.Pairwise (fun p q => p.x < q.x) ∧
    (∀ p ∈ s.platforms, 1 ≤ p.distance ∧ p.distance ≤ 3) := by
  have h := reachable_invCore hs
  have hpw := h.pairwise
  exact ⟨h.chain, hpw.imp (fun hr => hr.1), hpw.imp (fun hr => platRel_x_lt hr), h.dist⟩

theorem c5_witness :
    Chained sampleInit.platforms ∧
    sampleInit.platforms.Pairwise (fun p q => p.id < q.id) ∧
    sampleInit.platforms.Pairwise (fun p q => p.x < q.x) ∧
    (∀ p ∈ sampleInit.platforms, 1 ≤ p.distance ∧ p.distance ≤ 3) :=
  c5_platform_chain (Reachable.init 0 0 (fun _ => 0))

/-- C8: the code contradicts this claim.  On the very invocation in which
microphone access is refused (captured permission state pending, request
denied), startGame stores the denied state but still starts the game,
because the post-await check reads the pending value captured by the
closure rather than the freshly stored one. -/
theorem c8_denied_still_starts :
    (startGame MicPermission.pending MicResult.err).permission = MicPermission.denied ∧
    (startGame MicPermission.pending MicResult.err).gameStarted = true := by
  constructor <;> rfl

/-- C9 counterexample: with a previously denied permission state,
re-invoking startGame does not re-attempt acquisition. -/
theorem c9_counterexample :
    (startGame MicPermission.denied MicResult.ok).acquisitionAttempted = false := rfl

/-- C9 as amended: startGame attempts acquisition exactly when the
captured permission state is pending; with a previously denied state a
re-invocation neither re-attempts acquisition nor starts the game. -/
theorem c9_no_retry (r : MicResult) :
    (startGame MicPermission.denied r).acquisitionAttempted = false ∧
    (startGame MicPermission.denied r).gameStarted = false ∧
    (∀ c : MicPermission,
      (startGame c r).acquisitionAttempted = true ↔ c = MicPermission.pending) := by
  refine ⟨rfl, rfl, ?_⟩
  intro c
  cases c <;> simp [startGame]

/-- C10: in every reachable session state the live platform list is
non-empty, it stays non-empty across any tick, and at the two points of
a tick where the source reads the last element of the platform array
(before generation and before the final game-over check) the list read
is non-empty, as is the freshly evicted list. -/
theorem c10_platforms_nonempty {s : GameState} (hs : Reachable s) :
    s.platforms ≠ [] ∧
    (∀ i, (tick s i).platforms ≠ []) ∧
    (∀ i m, midTick s i = some m → m.platforms ≠ [] ∧ (evictPlatforms m).platforms ≠ []) := by
  have h := reachable_invCore hs
  refine ⟨h.ne, ?_, ?_⟩
  · intro i
    exact (tick_invCore i h).ne
  · intro i m hm
    obtain ⟨hinv, hcam⟩ := midTick_invCore i h hm
    exact ⟨hinv.ne, (evictPlatforms_invCore hinv hcam).ne⟩

theorem c10_witness :
    sampleInit.platforms ≠ [] ∧
    (∀ i, (tick sampleInit i).platforms ≠ []) ∧
    (∀ i m, midTick sampleInit i = some m →
      m.platforms ≠ [] ∧ (evictPlatforms m).platforms ≠ []) :=
  c10_platforms_nonempty (Reachable.init 0 0 (fun _ => 0))

/-- C3: for every reachable session state with a jump in flight whose
animation completes this tick, if a live platform carries the target id
then the chicken lands snapped to that platform's center (x = platform.x
+ PLATFORM_WIDTH/2 - CHICKEN_SIZE/2, y = PLATFORM_Y - CHICKEN_SIZE),
grounded and not falling, the current platform id and the score become
the target id, a landing event is reported, and the game-over flag is
untouched. -/
theorem c3_landing_snap {s : GameState} (hs : Reachable s) (i : TickInput)
    (hj : s.chicken.isJumping = true)
    (hp : s.chicken.jumpStartTime + JUMP_ANIMATION_DURATION ≤ i.now)
    {q : Platform} (hqmem : q ∈ s.platforms)
    (hqid : q.id = s.chicken.targetPlatformId) :
    (tick s i).chicken.x = q.x + PLATFORM_WIDTH / 2 - CHICKEN_SIZE / 2 ∧
    (tick s i).chicken.y = PLATFORM_Y - CHICKEN_SIZE ∧
    (tick s i).chicken.isJumping = false ∧
    (tick s i).chicken.isFalling = false ∧
    (tick s i).currentPlatformId = s.chicken.targetPlatformId ∧
    (tick s i).score = s.chicken.targetPlatformId ∧
    GEvent.landed s.chicken.targetPlatformId ∈ (tick s i).events ∧
    (tick s i).gameOver = s.gameOver := by
  have h := reachable_invCore hs
  have hnf : s.chicken.isFalling = false := by
    rcases h.flags with hx | hx
    · rw [hj] at hx
      cases hx
    · exact hx
  have hd : detectHop { s with events := ([] : List GEvent) } i =
      { s with events := ([] : List GEvent) } := by
    apply detectHop_skip
    rintro ⟨hj', -⟩
    have hj'' : s.chicken.isJumping = false := hj'
    rw [hj] at hj''
    cases hj''
  have hfind : ({ s with events := ([] : List GEvent) } : GameState).platforms.find?
      (fun p => decide (p.id =
        ({ s with events := ([] : List GEvent) } : GameState).chicken.targetPlatformId)) =
      some q :=
    find_eq_of_pairwise h.pairwise hqmem hqid
  have heq := jumpAnim_landing { s with events := ([] : List GEvent) } i hj hp hfind
  have hjmp2 : (jumpAnim (detectHop { s with events := ([] : List GEvent) } i)
      i).chicken.isJumping = false := by
    rw [hd, heq]
  have hfall2 : (jumpAnim (detectHop { s with events := ([] : List GEvent) } i)
      i).chicken.isFalling = false := by
    rw [hd, heq]
    exact hnf
  have hy2 : ¬ CANVAS_HEIGHT < (jumpAnim (detectHop { s with events := ([] : List GEvent) } i)
      i).chicken.y := by
    rw [hd, heq]
    norm_num [CANVAS_HEIGHT, PLATFORM_Y, CHICKEN_SIZE]
  obtain ⟨hch, hsc, hcur, hgo2, -, hev⟩ := tick_grounded_facts i hjmp2 hfall2 hy2
  rw [hd, heq] at hch hsc hcur hgo2 hev
  refine ⟨?_, ?_, ?_, ?_, ?_, ?_, ?_, ?_⟩
  · rw [hch]
  · rw [hch]
  · rw [hch]
  · rw [hch]
    exact hnf
  · rw [hcur]
  · rw [hsc]
  · rw [hev]
    simp
  · rw [hgo2]

theorem c3_witness :
    (tick sampleJumping sampleLand).chicken.x =
      (220 : ℚ) + PLATFORM_WIDTH / 2 - CHICKEN_SIZE / 2 ∧
    (tick sampleJumping sampleLand).chicken.y = PLATFORM_Y - CHICKEN_SIZE ∧
    (tick sampleJumping sampleLand).chicken.isJumping = false ∧
    (tick sampleJumping sampleLand).chicken.isFalling = false ∧
    (tick sampleJumping sampleLand).currentPlatformId =
      sampleJumping.chicken.targetPlatformId ∧
    (tick sampleJumping sampleLand).score = sampleJumping.chicken.targetPlatformId ∧
    GEvent.landed sampleJumping.chicken.targetPlatformId ∈
      (tick sampleJumping sampleLand).events ∧
    (tick sampleJumping sampleLand).gameOver = sampleJumping.gameOver :=
  c3_landing_snap sampleJumping_reachable sampleLand rfl (by decide)
    (q := ⟨220, 400, 1, 1⟩) (by decide) rfl

/-- C4: a jump whose target id no live platform carries ends in a fall,
never silently grounded: on the tick where the jump animation completes
the chicken transitions to falling (fall clock started at that tick,
score and game-over flag untouched, a fell event reported), and on the
tick where the fall animation completes (FALL_DURATION elapsed) the
session reports game-over with the score unchanged. -/
theorem c4_missing_platform_falls :
    (∀ (s : GameState) (i : TickInput),
      s.chicken.isJumping = true →
      s.chicken.jumpStartTime + JUMP_ANIMATION_DURATION ≤ i.now →
      (∀ p ∈ s.platforms, p.id ≠ s.chicken.targetPlatformId) →
      (tick s i).chicken.isFalling = true ∧
      (tick s i).chicken.isJumping = false ∧
      (tick s i).chicken.fallStartTime = i.now ∧
      (tick s i).score = s.score ∧
      (tick s i).gameOver = s.gameOver ∧
      GEvent.fell ∈ (tick s i).events) ∧
    (∀ (f : GameState) (j : TickInput),
      f.chicken.isFalling = true →
      f.chicken.isJumping = false →
      f.chicken.fallStartTime + FALL_DURATION ≤ j.now →
      (tick f j).gameOver = true ∧
      (tick f j).isPlaying = false ∧
      (tick f j).score = f.score ∧
      GEvent.over ∈ (tick f j).events) := by
  constructor
  · intro s i hj hp habs
    have hd : detectHop { s with events := ([] : List GEvent) } i =
        { s with events := ([] : List GEvent) } := by
      apply detectHop_skip
      rintro ⟨hj', -⟩
      have hj'' : s.chicken.isJumping = false := hj'
      rw [hj] at hj''
      cases hj''
    have hfind : ({ s with events := ([] : List GEvent) } : GameState).platforms.find?
        (fun p => decide (p.id =
          ({ s with events := ([] : List GEvent) } : GameState).chicken.targetPlatformId)) =
        none := by
      apply List.find?_eq_none.mpr
      intro x hx
      simp only [decide_eq_true_eq]
      exact habs x hx
    have heqf := jumpAnim_fell { s with events := ([] : List GEvent) } i hj hp hfind
    have hjmp2 : (jumpAnim (detectHop { s with events := ([] : List GEvent) } i)
        i).chicken.isJumping = false := by
      rw [hd, heqf]
    have hfall2 : (jumpAnim (detectHop { s with events := ([] : List GEvent) } i)
        i).chicken.isFalling = true := by
      rw [hd, heqf]
    have hmidp : i.now <
        (jumpAnim (detectHop { s with events := ([] : List GEvent) } i)
          i).chicken.fallStartTime + FALL_DURATION := by
      rw [hd, heqf]
      show i.now < i.now + FALL_DURATION
      have h8 : FALL_DURATION = (800 : ℤ) := rfl
      omega
    have hy : ¬ CANVAS_HEIGHT < PLATFORM_Y - CHICKEN_SIZE +
        (min (((i.now -
          (jumpAnim (detectHop { s with events := ([] : List GEvent) } i)
            i).chicken.fallStartTime : ℤ) : ℚ) / (FALL_DURATION : ℚ)) 1) *
        (min (((i.now -
          (jumpAnim (detectHop { s with events := ([] : List GEvent) } i)
            i).chicken.fallStartTime : ℤ) : ℚ) / (FALL_DURATION : ℚ)) 1) *
        CANVAS_HEIGHT := by
      rw [hd, heqf]
      norm_num [CANVAS_HEIGHT, PLATFORM_Y, CHICKEN_SIZE, FALL_DURATION, min_def]
    obtain ⟨h1, h2, h3, h4, h5, h6⟩ := tick_fall_mid_facts i hjmp2 hfall2 hmidp hy
    rw [hd, heqf] at h3 h4 h5 h6
    refine ⟨h2, h1, ?_, ?_, ?_, ?_⟩
    · rw [h3]
    · rw [h4]
    · rw [h5]
    · rw [h6]
      simp
  · intro f j hf hjmp hcomp
    have hd : detectHop { f with events := ([] : List GEvent) } j =
        { f with events := ([] : List GEvent) } := by
      apply detectHop_skip
      rintro ⟨-, hf', -⟩
      have hf'' : f.chicken.isFalling = false := hf'
      rw [hf] at hf''
      cases hf''
    have hj2 : jumpAnim { f with events := ([] : List GEvent) } j =
        { f with events := ([] : List GEvent) } := jumpAnim_skip _ _ hjmp
    have hfc := fallAnim_complete { f with events := ([] : List GEvent) } j
      f.score f.highScore hf hcomp
    have htick := tick_eq_of_fall_complete f j _ (by rw [hd, hj2]; exact hfc)
    rw [htick]
    refine ⟨rfl, rfl, rfl, ?_⟩
    simp [applyGameOver]

theorem c4_witness :
    ((tick sampleDoomed sampleMissTick).chicken.isFalling = true ∧
      (tick sampleDoomed sampleMissTick).chicken.isJumping = false ∧
      (tick sampleDoomed sampleMissTick).chicken.fallStartTime = sampleMissTick.now ∧
      (tick sampleDoomed sampleMissTick).score = sampleDoomed.score ∧
      (tick sampleDoomed sampleMissTick).gameOver = sampleDoomed.gameOver ∧
      GEvent.fell ∈ (tick sampleDoomed sampleMissTick).events) ∧
    ((tick sampleFallen sampleFallTick).gameOver = true ∧
      (tick sampleFallen sampleFallTick).isPlaying = false ∧
      (tick sampleFallen sampleFallTick).score = sampleFallen.score ∧
      GEvent.over ∈ (tick sampleFallen sampleFallTick).events) :=
  ⟨c4_missing_platform_falls.1 sampleDoomed sampleMissTick rfl (by decide) (by decide),
   c4_missing_platform_falls.2 sampleFallen sampleFallTick rfl rfl (by decide)⟩

/-- C6: within a session, a tick never decreases the score, and whenever
a landing event is reported this tick the score and the current platform
id both equal the landed platform's id. -/
theorem c6_score_monotone {s : GameState} (hs : Reachable s) (i : TickInput) :
    s.score ≤ (tick s i).score ∧
    (∀ id, GEvent.landed id ∈ (tick s i).events →
      (tick s i).score = id ∧ (tick s i).currentPlatformId = id) := by
  rcases tick_score_main s i with ⟨hsc, hcur, hnone⟩ |
    ⟨tgt, hsc, hcur, hmem, huniq, hj1, htgt⟩
  · exact ⟨le_of_eq hsc.symm, fun id hid => absurd hid (hnone id)⟩
  · have h := reachable_invCore hs
    have h0 : InvCore { s with events := ([] : List GEvent) } :=
      ⟨h.ne, h.chain, h.dist, h.score_eq, h.flags, h.grounded, h.jumping, h.falling⟩
    have h1 := detectHop_invCore i h0
    obtain ⟨c, hcmem, k, hcid, htgt2, hk1, hk3, -, -, -⟩ := h1.jumping hj1
    have hsc1 : (detectHop { s with events := ([] : List GEvent) } i).score = s.score :=
      detectHop_score _ i
    have hcur1 := h1.score_eq
    have htv : tgt = s.score + k := by
      rw [htgt, htgt2, ← hcur1, hsc1]
    constructor
    · rw [hsc, htv]
      omega
    · intro id hid
      have hidt := huniq id hid
      subst hidt
      exact ⟨hsc, hcur⟩

theorem c6_witness :
    sampleInit.score ≤ (tick sampleInit sampleLoud).score ∧
    (∀ id, GEvent.landed id ∈ (tick sampleInit sampleLoud).events →
      (tick sampleInit sampleLoud).score = id ∧
      (tick sampleInit sampleLoud).currentPlatformId = id) :=
  c6_score_monotone (Reachable.init 0 0 (fun _ => 0)) sampleLoud

/-- C7: on any tick that ends an active session in game-over (fall
completion or the global off-screen / past-last-platform check), the
persisted best score becomes max(previous best, current score): it is
overwritten with the current score exactly when the current score
exceeds the best, and is otherwise left unchanged. -/
theorem c7_best_score (s : GameState) (i : TickInput)
    (hprev : s.gameOver = false) (hgo : (tick s i).gameOver = true) :
    (tick s i).highScore = max s.highScore s.score ∧
    (s.highScore < s.score → (tick s i).highScore = s.score) ∧
    (s.score ≤ s.highScore → (tick s i).highScore = s.highScore) := by
  rcases hfa : fallAnim (jumpAnim (detectHop { s with events := ([] : List GEvent) } i) i) i
      s.score s.highScore with g | s3
  · have htick := tick_eq_of_fall_complete s i g hfa
    obtain ⟨-, -, -, -, -, -, -, -, hhigh, -⟩ := fallAnim_inl _ i s.score s.highScore g hfa
    rw [htick, hhigh]
    refine ⟨?_, ?_, ?_⟩
    · split_ifs with h <;> omega
    · intro h
      rw [if_pos h]
    · intro h
      rw [if_neg (not_lt.mpr h)]
  · have htick := tick_eq_of_phases s i s3 hfa
    rw [htick] at hgo ⊢
    split_ifs at hgo ⊢ with hcond
    · rw [applyGameOver_highScore]
      refine ⟨?_, ?_, ?_⟩
      · split_ifs with h <;> omega
      · intro h
        rw [if_pos h]
      · intro h
        rw [if_neg (not_lt.mpr h)]
    · exfalso
      rw [evictPlatforms_gameOver, generatePlat_gameOver] at hgo
      have hgo3 : s3.gameOver = true := hgo
      obtain ⟨-, -, -, -, -, -, hg3, -⟩ := fallAnim_inr _ i s.score s.highScore s3 hfa
      rw [hg3, jumpAnim_gameOver, detectHop_gameOver] at hgo3
      have hgos : s.gameOver = true := hgo3
      rw [hprev] at hgos
      cases hgos

theorem c7_witness :
    (sampleFallen.gameOver = false ∧ (tick sampleFallen sampleFallTick).gameOver = true) ∧
    ((tick sampleFallen sampleFallTick).highScore =
        max sampleFallen.highScore sampleFallen.score ∧
      (sampleFallen.highScore < sampleFallen.score →
        (tick sampleFallen sampleFallTick).highScore = sampleFallen.score) ∧
      (sampleFallen.score ≤ sampleFallen.highScore →
        (tick sampleFallen sampleFallTick).highScore = sampleFallen.highScore)) :=
  ⟨⟨rfl, sampleFallen_gameOver⟩,
   c7_best_score sampleFallen sampleFallTick rfl sampleFallen_gameOver⟩

end ChickenHop
